import Mathlib

/-!
# Codex Remote Agent Bridge — verification of the event-canonicalization core

This development embeds the event-translation core of the bridge:

* `AppServerEventConverter` (src/cli/src/codex/utils/appServerEventConverter.ts):
  JSON-RPC notifications → canonical events, with per-item accumulators;
* the SDK event mapper `CodexSdkClient.consumeTurnEvents`
  (src/cli/src/codex/codexSdkClient.ts);
* the MCP wrapper unwrapper and canonical event demultiplexer
  (`unwrapMcpWrapperEvent` / `handleCodexEvent`) and the turn progress
  watchdog of the remote launcher.

Upstream data is JSON-like; it is modelled by the inductive type `Value`.
JavaScript `undefined` is modelled as `Option.none` (an absent key), while
JSON `null` is `Value.null`; the nullish-coalescing operator `??` is `jsOr`.
JavaScript objects have unique keys; object literals and spreads are modelled
by `setKey` (replace the first binding of the key in place, else append),
which coincides with JavaScript object-literal semantics on objects with
unique keys.  Numbers are modelled as integers (no claim below depends on
non-integral or non-finite numbers), string case mapping is modelled on
ASCII (the strings the bridge compares are ASCII), and debug logging
(`logger.debug`, `logUnhandled`) is not modelled: it has no effect on the
values any function returns.
-/

inductive Value where
  | null : Value
  | bool : Bool → Value
  | num : Int → Value
  | str : String → Value
  | arr : List Value → Value
  | obj : List (String × Value) → Value
deriving Repr

mutual
/-- Boolean equality on `Value`, structurally. -/
def Value.beq : Value → Value → Bool
  | .null, .null => true
  | .bool a, .bool b => a == b
  | .num a, .num b => a == b
  | .str a, .str b => a == b
  | .arr a, .arr b => Value.beqList a b
  | .obj a, .obj b => Value.beqFields a b
  | _, _ => false

/-- Boolean equality on lists of values. -/
def Value.beqList : List Value → List Value → Bool
  | [], [] => true
  | x :: xs, y :: ys => Value.beq x y && Value.beqList xs ys
  | _, _ => false

/-- Boolean equality on object field lists. -/
def Value.beqFields : List (String × Value) → List (String × Value) → Bool
  | [], [] => true
  | (k, v) :: xs, (l, w) :: ys => k == l && Value.beq v w && Value.beqFields xs ys
  | _, _ => false
end

mutual
theorem Value.beq_iff : ∀ a b : Value, Value.beq a b = true ↔ a = b
  | .null, b => by cases b <;> simp [Value.beq]
  | .bool x, b => by cases b <;> simp [Value.beq]
  | .num x, b => by cases b <;> simp [Value.beq]
  | .str x, b => by cases b <;> simp [Value.beq]
  | .arr xs, b => by
      cases b <;> simp [Value.beq]
      exact Value.beqList_iff xs _
  | .obj fs, b => by
      cases b <;> simp [Value.beq]
      exact Value.beqFields_iff fs _

theorem Value.beqList_iff : ∀ a b : List Value, Value.beqList a b = true ↔ a = b
  | [], b => by cases b <;> simp [Value.beqList]
  | x :: xs, b => by
      cases b with
      | nil => simp [Value.beqList]
      | cons y ys =>
          simp only [Value.beqList, Bool.and_eq_true, List.cons.injEq]
          exact and_congr (Value.beq_iff x y) (Value.beqList_iff xs ys)

theorem Value.beqFields_iff :
    ∀ a b : List (String × Value), Value.beqFields a b = true ↔ a = b
  | [], b => by cases b <;> simp [Value.beqFields]
  | (k, v) :: xs, b => by
      cases b with
      | nil => simp [Value.beqFields]
      | cons p ys =>
          obtain ⟨l, w⟩ := p
          simp only [Value.beqFields, Bool.and_eq_true, List.cons.injEq, Prod.mk.injEq,
            beq_iff_eq, Value.beq_iff v w, Value.beqFields_iff xs ys]
end

instance : DecidableEq Value := fun a b =>
  decidable_of_iff (Value.beq a b = true) (Value.beq_iff a b)

mutual
/-- Structural size used as the termination measure for the recursive
event handlers (nested wrappers strictly shrink it). -/
def Value.vsize : Value → Nat
  | .null => 1
  | .bool _ => 1
  | .num _ => 1
  | .str _ => 1
  | .arr xs => 1 + Value.vsizeList xs
  | .obj fs => 1 + Value.vsizeFields fs

/-- Size of a list of values. -/
def Value.vsizeList : List Value → Nat
  | [] => 0
  | x :: xs => Value.vsize x + Value.vsizeList xs

/-- Size of an object's field list; each entry costs one plus its value. -/
def Value.vsizeFields : List (String × Value) → Nat
  | [] => 0
  | (_, v) :: fs => 1 + Value.vsize v + Value.vsizeFields fs
end

namespace Value

/-- First-binding lookup in a field list. -/
def lookupField : List (String × Value) → String → Option Value
  | [], _ => none
  | (l, v) :: fs, k => if l = k then some v else lookupField fs k

/-- Property access `r.k` on a JavaScript object: first binding of the key
(keys are unique in any object that arose from JavaScript).  Accessing a
named property of an array, or of a non-object, yields `undefined`. -/
def getField : Value → String → Option Value
  | .obj fs, k => lookupField fs k
  | _, _ => none

/-- Whether a key is present (`k in obj`, or `obj.k !== undefined` when the
stored value may be `null`). -/
def hasKey (v : Value) (k : String) : Bool :=
  (getField v k).isSome

/-- JavaScript assignment / object-literal semantics: replace the first
binding of the key in place, else append the binding at the end. -/
def setKey : List (String × Value) → String → Value → List (String × Value)
  | [], k, v => [(k, v)]
  | (l, w) :: fs, k, v => if l = k then (k, v) :: fs else (l, w) :: setKey fs k v

/-- `delete obj[k]` — removes the binding of the key. -/
def removeKey (fs : List (String × Value)) (k : String) : List (String × Value) :=
  fs.filter (fun kv => kv.1 ≠ k)

/-- The fields of a value when spread into an object literal.  Spreading an
array contributes index keys, which no code under study ever reads back; they
are not modelled. -/
def recFields : Value → List (String × Value)
  | .obj fs => fs
  | _ => []

/-- An object literal `{ k₁: v₁, …, kₙ: vₙ }` (entries may repeat keys, as
produced by spreads; later entries override earlier ones in place). -/
def jsObj (entries : List (String × Value)) : Value :=
  .obj (entries.foldl (fun fs kv => setKey fs kv.1 kv.2) [])

end Value

/-- The JavaScript nullish-coalescing operator `a ?? b`, with `none`
standing for `undefined`. -/
def jsOr (a b : Option Value) : Option Value :=
  match a with
  | none => b
  | some .null => b
  | some v => some v

/-- `asRecord` from the source: any object — arrays included, since
`typeof [] === 'object'` and arrays are truthy — else `null`. -/
def asRecord : Option Value → Option Value
  | some (.obj fs) => some (.obj fs)
  | some (.arr xs) => some (.arr xs)
  | _ => none

/-- `asString`: a non-empty string, else `null`. -/
def asString : Option Value → Option String
  | some (.str s) => if s.length > 0 then some s else none
  | _ => none

/-- `asBoolean`: a boolean, else `null`. -/
def asBoolean : Option Value → Option Bool
  | some (.bool b) => some b
  | _ => none

/-- `asNumber`: a finite number, else `null` (all modelled numbers are
finite integers). -/
def asNumber : Option Value → Option Int
  | some (.num n) => some n
  | _ => none

/-! ## ASCII string helpers

The bridge normalizes event-type strings with `trim`, `toLowerCase` and a
few regex replacements.  They are modelled on the character list of the
string; case mapping is ASCII (every string the bridge compares against is
ASCII). -/

/-- ASCII lower-casing of one character. -/
def asciiLowerChar (c : Char) : Char :=
  if 'A' ≤ c ∧ c ≤ 'Z' then Char.ofNat (c.toNat + 32) else c

/-- `String.prototype.toLowerCase` (ASCII fragment). -/
def lowerStr (s : String) : String := ⟨s.data.map asciiLowerChar⟩

/-- JavaScript whitespace (`\s`), ASCII fragment. -/
def isJsWs (c : Char) : Bool :=
  c = ' ' || c = '\t' || c = '\n' || c = '\r' || c.toNat = 11 || c.toNat = 12

/-- `String.prototype.trim`. -/
def trimStr (s : String) : String :=
  ⟨((s.data.dropWhile isJsWs).reverse.dropWhile isJsWs).reverse⟩

/-- `String.prototype.startsWith`. -/
def strStartsWith (s pre : String) : Bool := pre.data.isPrefixOf s.data

/-- `String.prototype.slice(n)` for a non-negative `n`. -/
def strDrop (s : String) (n : Nat) : String := ⟨s.data.drop n⟩

/-- `s.replace(/^pre/, '')` for a literal prefix pattern. -/
def stripPrefixStr (s pre : String) : String :=
  if strStartsWith s pre then strDrop s pre.data.length else s

theorem dropWhile_len_le {α : Type} (p : α → Bool) (l : List α) :
    (l.dropWhile p).length ≤ l.length := by
  induction l with
  | nil => simp
  | cons x xs ih =>
      by_cases hx : p x = true
      · simp only [List.dropWhile_cons, hx, if_true]
        exact Nat.le_succ_of_le ih
      · simp [List.dropWhile_cons, hx]

/-- Worker for `collapseRuns`: `inRun` records whether the previous
character belonged to the class (so the run already produced its `_`). -/
def collapseRunsAux (cls : Char → Bool) : Bool → List Char → List Char
  | _, [] => []
  | inRun, c :: cs =>
      if cls c then
        if inRun then collapseRunsAux cls true cs
        else '_' :: collapseRunsAux cls true cs
      else c :: collapseRunsAux cls false cs

/-- `s.replace(/[cls]+/g, '_')`: every maximal run of characters of the
class becomes a single underscore. -/
def collapseRuns (cls : Char → Bool) (l : List Char) : List Char :=
  collapseRunsAux cls false l

/-- Character class `[\s-]` of the app-server converter. -/
def isWsDash (c : Char) : Bool := isJsWs c || c = '-'

/-- Character class `[\/\s-]` of the MCP unwrapper. -/
def isWsDashSlash (c : Char) : Bool := isJsWs c || c = '-' || c = '/'

/-- `String.prototype.includes('/')`. -/
def strContainsSlash (s : String) : Bool := s.data.contains '/'

/-! ## Lookup and size lemmas -/

namespace Value

theorem lookupField_vsize {fs : List (String × Value)} {k : String} {v : Value}
    (h : lookupField fs k = some v) : vsize v < vsizeFields fs := by
  induction fs with
  | nil => simp [lookupField] at h
  | cons kv fs ih =>
      obtain ⟨l, w⟩ := kv
      by_cases hl : l = k
      · simp [lookupField, hl] at h
        subst h
        simp [vsizeFields]
        omega
      · simp [lookupField, hl] at h
        have := ih h
        simp [vsizeFields]
        omega

theorem getField_vsize {r : Value} {k : String} {v : Value}
    (h : getField r k = some v) : vsize v < vsize r := by
  cases r <;> simp [getField] at h
  case obj fs =>
    have := lookupField_vsize h
    simp [vsize]
    omega

theorem jsOr_vsize {r : Value} {a b : Option Value} {v : Value}
    (ha : ∀ w, a = some w → vsize w < vsize r)
    (hb : ∀ w, b = some w → vsize w < vsize r)
    (h : jsOr a b = some v) : vsize v < vsize r := by
  cases a with
  | none => exact hb v h
  | some w =>
      cases w <;> simp [jsOr] at h
      case null => exact hb v h
      all_goals (subst h; first | exact ha _ rfl)

theorem asRecord_vsize {r : Value} {a : Option Value} {v : Value}
    (ha : ∀ w, a = some w → vsize w < vsize r)
    (h : asRecord a = some v) : vsize v < vsize r := by
  cases a with
  | none => simp [asRecord] at h
  | some w => cases w <;> simp [asRecord] at h <;> (subst h; exact ha _ rfl)

theorem lookupField_setKey_self (fs : List (String × Value)) (k : String) (v : Value) :
    lookupField (setKey fs k v) k = some v := by
  induction fs with
  | nil => simp [setKey, lookupField]
  | cons kv fs ih =>
      obtain ⟨l, w⟩ := kv
      by_cases hl : l = k
      · simp [setKey, hl, lookupField]
      · simp [setKey, hl, lookupField, ih]

theorem lookupField_setKey_ne (fs : List (String × Value)) {k' k : String} (v : Value)
    (h : k' ≠ k) : lookupField (setKey fs k' v) k = lookupField fs k := by
  induction fs with
  | nil => simp [setKey, lookupField, h]
  | cons kv fs ih =>
      obtain ⟨l, w⟩ := kv
      by_cases hl : l = k'
      · subst hl
        simp [setKey, lookupField, h, ih]
      · simp [setKey, hl, lookupField, ih]

theorem setKey_eq_of_lookupField {fs : List (String × Value)} {k : String} {v : Value}
    (h : lookupField fs k = some v) : setKey fs k v = fs := by
  induction fs with
  | nil => simp [lookupField] at h
  | cons kv fs ih =>
      obtain ⟨l, w⟩ := kv
      by_cases hl : l = k
      · subst hl
        simp [lookupField] at h
        simp [setKey, h]
      · simp [lookupField, hl] at h
        simp [setKey, hl, ih h]

theorem lookupField_foldl_setKey_ne (entries : List (String × Value))
    {init : List (String × Value)} {k : String}
    (h : ∀ kv ∈ entries, kv.1 ≠ k) :
    lookupField (entries.foldl (fun fs kv => setKey fs kv.1 kv.2) init) k =
      lookupField init k := by
  induction entries generalizing init with
  | nil => rfl
  | cons kv rest ih =>
      simp only [List.foldl_cons]
      rw [ih (fun x hx => h x (List.mem_cons_of_mem kv hx))]
      exact lookupField_setKey_ne init kv.2 (h kv (List.mem_cons_self kv rest))

/-- The `type` field of an object literal whose first entry is `type` and
whose remaining entries never rebind `type`. -/
theorem getField_jsObj_type (t : Value) (rest : List (String × Value))
    (h : ∀ kv ∈ rest, kv.1 ≠ "type") :
    getField (jsObj (("type", t) :: rest)) "type" = some t := by
  simp only [jsObj, getField, List.foldl_cons]
  rw [lookupField_foldl_setKey_ne rest h]
  simp [setKey, lookupField]

end Value

/-! ## Generic JS-map helpers (for the converter's `Map` fields) -/

/-- `map.get(k)` on a JavaScript `Map` keyed by strings. -/
def mget {α : Type} (m : List (String × α)) (k : String) : Option α :=
  (m.find? (fun kv => kv.1 == k)).map Prod.snd

/-- `map.set(k, v)`: replace in place or append (insertion order kept). -/
def mset {α : Type} : List (String × α) → String → α → List (String × α)
  | [], k, v => [(k, v)]
  | (l, w) :: m, k, v => if l = k then (k, v) :: m else (l, w) :: mset m k v

/-- `map.delete(k)`. -/
def mdel {α : Type} (m : List (String × α)) (k : String) : List (String × α) :=
  m.filter (fun kv => kv.1 ≠ k)

/-- Optional chaining `r?.k` on an optional record. -/
def optGet (v : Option Value) (k : String) : Option Value :=
  v.bind (fun r => Value.getField r k)

/-- JavaScript truthiness filter for an optional string (`if (s) …`). -/
def strTruthy : Option String → Option String
  | some s => if s.length > 0 then some s else none
  | none => none

/-- `…(x ? { k: x } : {})` for an (already non-empty) optional string. -/
def optEntryS (k : String) (v : Option String) : List (String × Value) :=
  match v with
  | some s => [(k, Value.str s)]
  | none => []

/-- `…(x !== undefined ? { k: x } : {})` for an optional raw value. -/
def optEntryV (k : String) (v : Option Value) : List (String × Value) :=
  match v with
  | some x => [(k, x)]
  | none => []

/-! ## App-server event converter

Embedding of `AppServerEventConverter`
(src/cli/src/codex/utils/appServerEventConverter.ts).  The converter's
mutable `Map` fields become the explicit state `Conv.ConvState`;
`handleNotification` threads it.  The throttled `logUnhandled` debug logger
(and its `unhandledMethods` map) is not modelled: it only writes to the
debug log and never affects the returned events or the buffers. -/

namespace Conv

open Value

/-- `DIRECT_EVENT_TYPE_ALIASES`. -/
def DIRECT_EVENT_TYPE_ALIASES : List (String × String) := [
  ("task/started", "task_started"),
  ("task_started", "task_started"),
  ("task/completed", "task_complete"),
  ("task_completed", "task_complete"),
  ("task_complete", "task_complete"),
  ("turn/aborted", "turn_aborted"),
  ("turn_aborted", "turn_aborted"),
  ("task/failed", "task_failed"),
  ("task_failed", "task_failed"),
  ("stream/error", "stream_error"),
  ("stream_error", "stream_error"),
  ("error", "error"),
  ("agent/message", "agent_message"),
  ("agent_message", "agent_message"),
  ("agent/reasoning", "agent_reasoning"),
  ("agent_reasoning", "agent_reasoning"),
  ("agent/reasoning/delta", "agent_reasoning_delta"),
  ("agent_reasoning_delta", "agent_reasoning_delta"),
  ("agent/reasoning/section_break", "agent_reasoning_section_break"),
  ("agent_reasoning_section_break", "agent_reasoning_section_break"),
  ("token_count", "token_count"),
  ("exec_command_begin", "exec_command_begin"),
  ("exec_command_end", "exec_command_end"),
  ("exec_approval_request", "exec_approval_request"),
  ("patch_apply_begin", "patch_apply_begin"),
  ("patch_apply_end", "patch_apply_end"),
  ("thread_started", "thread_started"),
  ("turn_diff", "turn_diff")]

/-- `DIRECT_EVENT_TYPES`. -/
def DIRECT_EVENT_TYPES : List String := [
  "task_started", "task_complete", "turn_aborted", "task_failed",
  "stream_error", "error", "agent_message", "agent_reasoning",
  "agent_reasoning_delta", "agent_reasoning_section_break", "token_count",
  "exec_command_begin", "exec_command_end", "exec_approval_request",
  "patch_apply_begin", "patch_apply_end", "thread_started", "turn_diff"]

/-- `normalizeDirectEventType`: trim, lower-case, strip a leading
`codex/event/`, collapse runs of whitespace and dashes to `_`, then look up
the alias table and the direct-type set. -/
def normalizeDirectEventType (value : String) : Option String :=
  let normalized : String :=
    ⟨collapseRuns isWsDash (stripPrefixStr (lowerStr (trimStr value)) "codex/event/").data⟩
  match DIRECT_EVENT_TYPE_ALIASES.find? (fun kv => kv.1 == normalized) with
  | some kv => some kv.2
  | none => if DIRECT_EVENT_TYPES.contains normalized then some normalized else none

/-- `extractItemId`. -/
def extractItemId (params : Value) : Option String :=
  match asString (jsOr (getField params "itemId")
      (jsOr (getField params "item_id") (getField params "id"))) with
  | some direct => some direct
  | none =>
      match asRecord (getField params "item") with
      | some item =>
          asString (jsOr (getField item "id")
            (jsOr (getField item "itemId") (getField item "item_id")))
      | none => none

/-- `extractItem`: `asRecord(params.item) ?? params`. -/
def extractItem (params : Value) : Value :=
  match asRecord (getField params "item") with
  | some item => item
  | none => params

/-- Lower-case and drop every whitespace, underscore and dash character
(`.toLowerCase().replace(/[\s_-]/g, '')`). -/
def stripSepLower (s : String) : String :=
  ⟨(lowerStr s).data.filter (fun c => !(isJsWs c || c = '_' || c = '-'))⟩

/-- `normalizeItemType`. -/
def normalizeItemType (v : Option Value) : Option String :=
  match asString v with
  | none => none
  | some raw => some (stripSepLower raw)

/-- `extractCommand`: a string passes through (even empty); an array keeps
its string elements joined by spaces (`null` when none). -/
def extractCommand : Option Value → Option String
  | some (.str s) => some s
  | some (.arr xs) =>
      let parts := xs.filterMap (fun v => match v with | .str s => some s | _ => none)
      if parts.length > 0 then some (String.intercalate " " parts) else none
  | _ => none

/-- `extractChanges`: any object (arrays included — `typeof [] === 'object'`
makes the source's `Array.isArray` branch unreachable) passes through. -/
def extractChanges (value : Option Value) : Option Value :=
  asRecord value

/-- `if (x !== … && converted.k === undefined) converted.k = x` — assign a
field only when the source value is present and the key still absent. -/
def setIfAbsent (c : List (String × Value)) (k : String) (v : Option Value) :
    List (String × Value) :=
  match v with
  | some x => if lookupField c k = none then setKey c k x else c
  | none => c

/-- `AppServerEventConverter.convertDirectEventRecord`. -/
def convertDirectEventRecord (record : Value) (typeHint : Option String) : List Value :=
  let tyStr : String := (asString (getField record "type")).getD (typeHint.getD "")
  match normalizeDirectEventType tyStr with
  | none => []
  | some normalizedType =>
    let willRetry :=
      (asBoolean (jsOr (getField record "will_retry") (getField record "willRetry"))).getD false
    if (normalizedType = "error" ∨ normalizedType = "stream_error") ∧ willRetry then []
    else
      -- converted = { ...record, type: normalizedType }
      let c0 := setKey (recFields record) "type" (.str normalizedType)
      let turnId := asString (jsOr (getField record "turn_id")
        (jsOr (getField record "turnId") (optGet (asRecord (getField record "turn")) "id")))
      let c1 := setIfAbsent c0 "turn_id" (turnId.map Value.str)
      let threadId := asString (jsOr (getField record "thread_id")
        (jsOr (getField record "threadId") (optGet (asRecord (getField record "thread")) "id")))
      let c2 := setIfAbsent c1 "thread_id" (threadId.map Value.str)
      let c3 :=
        if normalizedType = "task_failed" then
          setIfAbsent c2 "error" ((asString (jsOr (getField record "error")
            (jsOr (getField record "message") (getField record "reason")))).map Value.str)
        else c2
      let c4 :=
        if normalizedType = "error" ∨ normalizedType = "stream_error" then
          setIfAbsent (setIfAbsent c3 "message" ((asString (jsOr (getField record "message")
              (jsOr (optGet (asRecord (getField record "error")) "message")
                (getField record "reason")))).map Value.str))
            "additional_details"
            (jsOr (getField record "additional_details")
              (jsOr (getField record "additionalDetails")
                (jsOr (optGet (asRecord (getField record "error")) "additional_details")
                  (optGet (asRecord (getField record "error")) "additionalDetails"))))
        else c3
      let c5 :=
        if normalizedType = "agent_message" then
          setIfAbsent c4 "message" ((asString (jsOr (getField record "message")
            (jsOr (getField record "text") (getField record "content")))).map Value.str)
        else c4
      let c6 :=
        if normalizedType = "agent_reasoning" then
          setIfAbsent c5 "text" ((asString (jsOr (getField record "text")
            (jsOr (getField record "message") (getField record "content")))).map Value.str)
        else c5
      [Value.obj c6]

/-- `AppServerEventConverter.handleThreadStatusChanged`. -/
def handleThreadStatusChanged (p : Value) : List Value :=
  let statusRecord := asRecord (jsOr (getField p "status")
    (jsOr (getField p "threadStatus") (getField p "thread_status")))
  let statusRaw := asString (jsOr (optGet statusRecord "type")
    (jsOr (optGet statusRecord "status")
      (jsOr (optGet statusRecord "state")
        (jsOr (getField p "status") (getField p "state")))))
  let normalizedStatus := statusRaw.map stripSepLower
  let thread := asRecord (getField p "thread")
  let threadId := asString (jsOr (getField p "thread_id")
    (jsOr (getField p "threadId") (optGet thread "id")))
  let turn := asRecord (getField p "turn")
  let turnId := asString (jsOr (getField p "turn_id")
    (jsOr (getField p "turnId") (optGet turn "id")))
  if normalizedStatus = some "systemerror" then
    let systemError := asRecord (jsOr (optGet statusRecord "systemError")
      (jsOr (getField p "systemError")
        (jsOr (optGet statusRecord "error") (getField p "error"))))
    let message := (asString (jsOr (optGet systemError "message")
      (jsOr (optGet statusRecord "message")
        (jsOr (getField p "message") (getField p "reason"))))).getD
      "Codex thread entered systemError state"
    let additionalDetails := jsOr (optGet systemError "additional_details")
      (jsOr (optGet systemError "additionalDetails")
        (jsOr (getField p "additional_details") (getField p "additionalDetails")))
    [Value.obj ([("type", Value.str "error"), ("message", Value.str message)]
      ++ optEntryS "thread_id" threadId
      ++ optEntryS "turn_id" turnId
      ++ optEntryV "additional_details" additionalDetails)]
  else if normalizedStatus = some "completed" ∨ normalizedStatus = some "complete"
      ∨ normalizedStatus = some "done" then
    [Value.obj (("type", Value.str "task_complete") :: optEntryS "turn_id" turnId)]
  else if normalizedStatus = some "interrupted" ∨ normalizedStatus = some "cancelled"
      ∨ normalizedStatus = some "canceled" ∨ normalizedStatus = some "aborted" then
    [Value.obj (("type", Value.str "turn_aborted") :: optEntryS "turn_id" turnId)]
  else if normalizedStatus = some "failed" ∨ normalizedStatus = some "error" then
    let errorMessage := asString (jsOr (getField p "message")
      (jsOr (getField p "reason")
        (jsOr (optGet statusRecord "message")
          (optGet (asRecord (getField p "error")) "message"))))
    [Value.obj (("type", Value.str "task_failed") :: optEntryS "turn_id" turnId
      ++ optEntryS "error" errorMessage)]
  else []

/-- The converter's mutable per-item accumulators. -/
structure ConvState where
  agentMessageBuffers : List (String × String)
  reasoningBuffers : List (String × String)
  commandOutputBuffers : List (String × String)
  commandMeta : List (String × List (String × Value))
  fileChangeMeta : List (String × List (String × Value))
deriving Repr, DecidableEq

/-- A freshly constructed converter. -/
def ConvState.init : ConvState := ⟨[], [], [], [], []⟩

/-- `AppServerEventConverter.reset`. -/
def ConvState.reset (_ : ConvState) : ConvState := ConvState.init

/-- `…(b !== null ? { k: b } : {})` for an optional boolean. -/
def optEntryB (k : String) (v : Option Bool) : List (String × Value) :=
  match v with
  | some b => [(k, Value.bool b)]
  | none => []

/-- `…(n !== null ? { k: n } : {})` for an optional number. -/
def optEntryI (k : String) (v : Option Int) : List (String × Value) :=
  match v with
  | some n => [(k, Value.num n)]
  | none => []

/-! ### Termination measure lemmas for the wrapped-notification recursion -/

theorem jsOr2_getField_vsize {p v : Value} {k1 k2 : String}
    (h : jsOr (getField p k1) (getField p k2) = some v) : vsize v < vsize p := by
  refine jsOr_vsize (fun w hw => getField_vsize hw) (fun w hw => getField_vsize hw) h

theorem jsOr3_getField_vsize {p v : Value} {k1 k2 k3 : String}
    (h : jsOr (getField p k1) (jsOr (getField p k2) (getField p k3)) = some v) :
    vsize v < vsize p := by
  refine jsOr_vsize (fun w hw => getField_vsize hw)
    (fun w hw => jsOr2_getField_vsize hw) h

theorem jsOr4_getField_vsize {p v : Value} {k1 k2 k3 k4 : String}
    (h : jsOr (getField p k1) (jsOr (getField p k2)
      (jsOr (getField p k3) (getField p k4))) = some v) : vsize v < vsize p := by
  refine jsOr_vsize (fun w hw => getField_vsize hw)
    (fun w hw => jsOr3_getField_vsize hw) h

/-- The wrapped record `params.msg ?? params.event ?? params.payload ?? params.data`
is strictly smaller than the params record. -/
theorem wrapped_vsize_lt {p w : Value}
    (hw : asRecord (jsOr (getField p "msg") (jsOr (getField p "event")
      (jsOr (getField p "payload") (getField p "data")))) = some w) :
    vsize w < vsize p := by
  refine asRecord_vsize (fun x hx => jsOr4_getField_vsize hx) hw

/-- The nested params `w.params ?? w.payload ?? w.data ?? w` stay below any
bound that `w` itself satisfies. -/
theorem nestedParams_vsize_lt {p w : Value} (hwlt : vsize w < vsize p) :
    vsize ((asRecord (jsOr (getField w "params") (jsOr (getField w "payload")
      (getField w "data")))).getD w) < vsize p := by
  cases h : asRecord (jsOr (getField w "params") (jsOr (getField w "payload")
      (getField w "data"))) with
  | none => simpa using hwlt
  | some x =>
      have hx : vsize x < vsize w :=
        asRecord_vsize (fun y hy => jsOr3_getField_vsize hy) h
      simp only [Option.getD_some]
      omega

/-- The coerced params record is never larger than the raw params value. -/
theorem paramsRecord_vsize_le (params : Value) :
    vsize ((asRecord (some params)).getD (Value.obj [])) ≤ vsize params := by
  cases params <;> simp [asRecord, vsize, vsizeFields]

/-- vsize is always positive. -/
theorem vsize_pos (v : Value) : 1 ≤ vsize v := by
  cases v <;> simp only [vsize] <;> omega

/-- Stripping the `codex/event/` prefix shortens the method string. -/
theorem strDrop12_length_lt {m : String}
    (h : strStartsWith m "codex/event/" = true) :
    (strDrop m 12).length < m.length := by
  simp only [strStartsWith, List.isPrefixOf_iff_prefix] at h
  obtain ⟨t, ht⟩ := h
  have hlen : m.data.length = 12 + t.length := by
    rw [← ht]; simp; omega
  simp only [strDrop, String.length, List.length_drop]
  omega

mutual

/-- `AppServerEventConverter.handleCodexWrappedNotification`: returns `none`
exactly when the method is not `codex/event` or `codex/event/...` (the
source returns `null` there), so that `handleNotification` falls through to
its other branches. -/
def handleCodexWrapped (st : ConvState) (method : String) (p : Value) :
    Option (List Value × ConvState) :=
  if method = "codex/event" ∨ strStartsWith method "codex/event/" = true then
    let suffix : Option String :=
      if strStartsWith method "codex/event/" = true
      then some (strDrop method 12) else none  -- 12 = 'codex/event/'.length
    match hw : asRecord (jsOr (getField p "msg") (jsOr (getField p "event")
        (jsOr (getField p "payload") (getField p "data")))) with
    | some w =>
        let nested1 : List Value :=
          match asRecord (getField w "msg") with
          | some nw => convertDirectEventRecord nw none
          | none => []
        if nested1 ≠ [] then some (nested1, st)
        else
          -- `nestedParams` is computed by the same expression in the
          -- nested-method and nested-suffix blocks of the source
          let nestedParamsW := (asRecord (jsOr (getField w "params")
            (jsOr (getField w "payload") (getField w "data")))).getD w
          let nestedMethod : Option String :=
            match asString (jsOr (getField w "method")
                (jsOr (getField w "notification") (getField w "name"))) with
            | some nm => if nm ≠ method then some nm else none
            | none => none
          match nestedMethod with
          | some nm => some (handleNotification st nm nestedParamsW)
          | none =>
              let step3 : Option (List Value) × ConvState :=
                match suffix with
                | some sfx =>
                    if strContainsSlash sfx = true then
                      let directEvents := convertDirectEventRecord nestedParamsW (some sfx)
                      if directEvents ≠ [] then (some directEvents, st)
                      else
                        let r := handleNotification st sfx nestedParamsW
                        if r.1 ≠ [] then (some r.1, r.2) else (none, r.2)
                    else (none, st)
                | none => (none, st)
              match step3 with
              | (some ev, st3) => some (ev, st3)
              | (none, st3) =>
                  let wrappedEvents := convertDirectEventRecord w suffix
                  if wrappedEvents ≠ [] then some (wrappedEvents, st3)
                  else some (handleWrappedTail st3 method p)
    | none => some (handleWrappedTail st method p)
  else none
termination_by (Value.vsize p, 3 * method.length + 1)
decreasing_by
  · exact Prod.Lex.left _ _ (nestedParams_vsize_lt (wrapped_vsize_lt hw))
  · exact Prod.Lex.left _ _ (nestedParams_vsize_lt (wrapped_vsize_lt hw))
  · exact Prod.Lex.right _ (by omega)
  · exact Prod.Lex.right _ (by omega)

/-- Steps of `handleCodexWrappedNotification` after the `if (wrapped)` block:
the suffix tried against `params.params ?? params.payload ?? params.data ??
params` and then against the params record itself.  The suffix is recomputed
from the method exactly as in `handleCodexWrapped`. -/
def handleWrappedTail (st : ConvState) (method : String) (p : Value) :
    List Value × ConvState :=
  if h : strStartsWith method "codex/event/" = true then
    let sfx := strDrop method 12
    -- `if (suffix && suffix.includes('/'))`: the empty suffix is falsy
    if strContainsSlash sfx = true then
      let nestedParams := (asRecord (jsOr (getField p "params")
        (jsOr (getField p "payload") (getField p "data")))).getD p
      let directEvents := convertDirectEventRecord nestedParams (some sfx)
      if directEvents ≠ [] then (directEvents, st)
      else
        let r := handleNotification st sfx nestedParams
        if r.1 ≠ [] then r
        else
          let de := convertDirectEventRecord p (some sfx)
          if de ≠ [] then (de, r.2) else ([], r.2)
    else if sfx ≠ "" then
      -- `if (suffix)` alone
      let de := convertDirectEventRecord p (some sfx)
      if de ≠ [] then (de, st) else ([], st)
    else ([], st)
  else ([], st)
termination_by (Value.vsize p, 3 * method.length)
decreasing_by
  rcases Nat.lt_or_ge (Value.vsize ((asRecord (jsOr (getField p "params")
      (jsOr (getField p "payload") (getField p "data")))).getD p)) (Value.vsize p) with hlt | hge
  · exact Prod.Lex.left _ _ hlt
  · have hle : Value.vsize ((asRecord (jsOr (getField p "params")
        (jsOr (getField p "payload") (getField p "data")))).getD p) ≤ Value.vsize p := by
      cases hx : asRecord (jsOr (getField p "params")
          (jsOr (getField p "payload") (getField p "data"))) with
      | none => simp
      | some x =>
          have : Value.vsize x < Value.vsize p :=
            asRecord_vsize (fun y hy => jsOr3_getField_vsize hy) hx
          simp only [Option.getD_some]
          omega
    have heq : Value.vsize ((asRecord (jsOr (getField p "params")
        (jsOr (getField p "payload") (getField p "data")))).getD p) = Value.vsize p := by
      omega
    rw [heq]
    exact Prod.Lex.right _ (by have := strDrop12_length_lt h; omega)

/-- `AppServerEventConverter.handleNotification`. -/
def handleNotification (st : ConvState) (method : String) (params : Value) :
    List Value × ConvState :=
  let pr := (asRecord (some params)).getD (Value.obj [])
  match handleCodexWrapped st method pr with
  | some r => r
  | none =>
    if method = "thread/started" ∨ method = "thread/resumed" then
      let thread := (asRecord (getField pr "thread")).getD pr
      let threadId := asString (jsOr (getField thread "threadId")
        (jsOr (getField thread "thread_id") (getField thread "id")))
      match threadId with
      | some t => ([Value.obj [("type", Value.str "thread_started"), ("thread_id", Value.str t)]], st)
      | none => ([], st)
    else if method = "turn/started" then
      let turn := (asRecord (getField pr "turn")).getD pr
      let turnId := asString (jsOr (getField turn "turnId")
        (jsOr (getField turn "turn_id") (getField turn "id")))
      ([Value.obj (("type", Value.str "task_started") :: optEntryS "turn_id" turnId)], st)
    else if method = "turn/completed" then
      let turn := (asRecord (getField pr "turn")).getD pr
      let status := (asString (jsOr (getField pr "status") (getField turn "status"))).map lowerStr
      let turnId := asString (jsOr (getField turn "turnId")
        (jsOr (getField turn "turn_id") (getField turn "id")))
      let errorMessage := asString (jsOr (getField pr "error")
        (jsOr (getField pr "message") (getField pr "reason")))
      if status = some "interrupted" ∨ status = some "cancelled" ∨ status = some "canceled" then
        ([Value.obj (("type", Value.str "turn_aborted") :: optEntryS "turn_id" turnId)], st)
      else if status = some "failed" ∨ status = some "error" then
        ([Value.obj (("type", Value.str "task_failed") :: optEntryS "turn_id" turnId
          ++ optEntryS "error" errorMessage)], st)
      else
        ([Value.obj (("type", Value.str "task_complete") :: optEntryS "turn_id" turnId)], st)
    else if method = "thread/status/changed" then
      (handleThreadStatusChanged pr, st)
    else if method = "turn/diff/updated" then
      match asString (jsOr (getField pr "diff")
          (jsOr (getField pr "unified_diff") (getField pr "unifiedDiff"))) with
      | some diff => ([Value.obj [("type", Value.str "turn_diff"), ("unified_diff", Value.str diff)]], st)
      | none => ([], st)
    else if method = "thread/tokenUsage/updated" then
      let info := (asRecord (jsOr (getField pr "tokenUsage")
        (jsOr (getField pr "token_usage") (some pr)))).getD (Value.obj [])
      ([Value.obj [("type", Value.str "token_count"), ("info", info)]], st)
    else if method = "error" then
      let willRetry := (asBoolean (jsOr (getField pr "will_retry") (getField pr "willRetry"))).getD false
      if willRetry then ([], st)
      else
        let message := match asString (jsOr (getField pr "message") (getField pr "reason")) with
          | some m => some m
          | none => asString (optGet (asRecord (getField pr "error")) "message")
        let additionalDetails := jsOr (getField pr "additional_details")
          (jsOr (getField pr "additionalDetails")
            (jsOr (optGet (asRecord (getField pr "error")) "additional_details")
              (optGet (asRecord (getField pr "error")) "additionalDetails")))
        match message with
        | some m => ([Value.obj ([("type", Value.str "error"), ("message", Value.str m)]
            ++ optEntryV "additional_details" additionalDetails)], st)
        | none => ([], st)
    else if method = "stream_error" then
      let willRetry := (asBoolean (jsOr (getField pr "will_retry") (getField pr "willRetry"))).getD false
      if willRetry then ([], st)
      else
        let message := match asString (jsOr (getField pr "message") (getField pr "reason")) with
          | some m => some m
          | none => asString (optGet (asRecord (getField pr "error")) "message")
        let additionalDetails := jsOr (getField pr "additional_details")
          (jsOr (getField pr "additionalDetails")
            (jsOr (optGet (asRecord (getField pr "error")) "additional_details")
              (optGet (asRecord (getField pr "error")) "additionalDetails")))
        match message with
        | some m => ([Value.obj ([("type", Value.str "stream_error"), ("message", Value.str m)]
            ++ optEntryV "additional_details" additionalDetails)], st)
        | none => ([], st)
    else if method = "item/agentMessage/delta" then
      let itemId := extractItemId pr
      let delta := asString (jsOr (getField pr "delta")
        (jsOr (getField pr "text") (getField pr "message")))
      match itemId, delta with
      | some i, some d =>
          let buf := mset st.agentMessageBuffers i ((mget st.agentMessageBuffers i).getD "" ++ d)
          ([], { st with agentMessageBuffers := buf })
      | _, _ => ([], st)
    else if method = "item/reasoning/textDelta" then
      let itemId := (extractItemId pr).getD "reasoning"
      let delta := asString (jsOr (getField pr "delta")
        (jsOr (getField pr "text") (getField pr "message")))
      match delta with
      | some d =>
          let buf := mset st.reasoningBuffers itemId ((mget st.reasoningBuffers itemId).getD "" ++ d)
          ([Value.obj [("type", Value.str "agent_reasoning_delta"), ("delta", Value.str d)]],
            { st with reasoningBuffers := buf })
      | none => ([], st)
    else if method = "item/reasoning/summaryPartAdded" then
      ([Value.obj [("type", Value.str "agent_reasoning_section_break")]], st)
    else if method = "item/commandExecution/outputDelta" then
      let itemId := extractItemId pr
      let delta := asString (jsOr (getField pr "delta")
        (jsOr (getField pr "text") (jsOr (getField pr "output") (getField pr "stdout"))))
      match itemId, delta with
      | some i, some d =>
          let buf := mset st.commandOutputBuffers i ((mget st.commandOutputBuffers i).getD "" ++ d)
          ([], { st with commandOutputBuffers := buf })
      | _, _ => ([], st)
    else if method = "item/started" ∨ method = "item/completed" then
      let item := extractItem pr
      let itemType := normalizeItemType (jsOr (getField item "type")
        (jsOr (getField item "itemType") (getField item "kind")))
      let itemId := match extractItemId pr with
        | some i => some i
        | none => asString (jsOr (getField item "id")
            (jsOr (getField item "itemId") (getField item "item_id")))
      match itemType, itemId with
      | some ty, some id =>
          if ty = "agentmessage" then
            if method = "item/completed" then
              let text := match asString (jsOr (getField item "text")
                  (jsOr (getField item "message") (getField item "content"))) with
                | some t => some t
                | none => mget st.agentMessageBuffers id
              let events := match strTruthy text with
                | some t => [Value.obj [("type", Value.str "agent_message"), ("message", Value.str t)]]
                | none => []
              (events, { st with agentMessageBuffers := mdel st.agentMessageBuffers id })
            else ([], st)
          else if ty = "reasoning" then
            if method = "item/completed" then
              let text := match asString (jsOr (getField item "text")
                  (jsOr (getField item "message") (getField item "content"))) with
                | some t => some t
                | none => mget st.reasoningBuffers id
              let events := match strTruthy text with
                | some t => [Value.obj [("type", Value.str "agent_reasoning"), ("text", Value.str t)]]
                | none => []
              (events, { st with reasoningBuffers := mdel st.reasoningBuffers id })
            else ([], st)
          else if ty = "commandexecution" then
            if method = "item/started" then
              let command := extractCommand (jsOr (getField item "command")
                (jsOr (getField item "cmd") (getField item "args")))
              let cwd := asString (jsOr (getField item "cwd")
                (jsOr (getField item "workingDirectory") (getField item "working_directory")))
              let autoApproved := asBoolean (jsOr (getField item "autoApproved")
                (getField item "auto_approved"))
              let meta := optEntryS "command" (strTruthy command) ++ optEntryS "cwd" cwd
                ++ optEntryB "auto_approved" autoApproved
              ([jsObj (("type", Value.str "exec_command_begin")
                  :: ("call_id", Value.str id) :: meta)],
                { st with commandMeta := mset st.commandMeta id meta })
            else if method = "item/completed" then
              let meta := (mget st.commandMeta id).getD []
              let output := match asString (jsOr (getField item "output")
                  (jsOr (getField item "result") (getField item "stdout"))) with
                | some o => some o
                | none => mget st.commandOutputBuffers id
              let stderr := asString (getField item "stderr")
              let error := asString (getField item "error")
              let exitCode := asNumber (jsOr (getField item "exitCode")
                (jsOr (getField item "exit_code") (getField item "exitcode")))
              let status := asString (getField item "status")
              ([jsObj (("type", Value.str "exec_command_end") :: ("call_id", Value.str id)
                  :: meta ++ optEntryS "output" (strTruthy output)
                  ++ optEntryS "stderr" stderr ++ optEntryS "error" error
                  ++ optEntryI "exit_code" exitCode ++ optEntryS "status" status)],
                { st with commandMeta := mdel st.commandMeta id, commandOutputBuffers := mdel st.commandOutputBuffers id })
            else ([], st)
          else if ty = "filechange" then
            if method = "item/started" then
              let changes := extractChanges (jsOr (getField item "changes")
                (jsOr (getField item "change") (getField item "diff")))
              let autoApproved := asBoolean (jsOr (getField item "autoApproved")
                (getField item "auto_approved"))
              let meta := optEntryV "changes" changes ++ optEntryB "auto_approved" autoApproved
              ([jsObj (("type", Value.str "patch_apply_begin")
                  :: ("call_id", Value.str id) :: meta)],
                { st with fileChangeMeta := mset st.fileChangeMeta id meta })
            else if method = "item/completed" then
              let meta := (mget st.fileChangeMeta id).getD []
              let stdout := asString (jsOr (getField item "stdout") (getField item "output"))
              let stderr := asString (getField item "stderr")
              let success := (asBoolean (jsOr (getField item "success")
                (jsOr (getField item "ok")
                  (jsOr (getField item "applied")
                    (some (Value.bool (decide (getField item "status" = some (Value.str "completed"))))))))).getD false
              ([jsObj (("type", Value.str "patch_apply_end") :: ("call_id", Value.str id)
                  :: meta ++ optEntryS "stdout" stdout ++ optEntryS "stderr" stderr
                  ++ [("success", Value.bool success)])],
                { st with fileChangeMeta := mdel st.fileChangeMeta id })
            else ([], st)
          else ([], st)
      | _, _ => ([], st)
    else ([], st)
termination_by (Value.vsize params, 3 * method.length + 2)
decreasing_by
  rcases Nat.lt_or_ge (Value.vsize ((asRecord (some params)).getD (Value.obj [])))
      (Value.vsize params) with hlt | hge
  · exact Prod.Lex.left _ _ hlt
  · have hle := paramsRecord_vsize_le params
    have heq : Value.vsize ((asRecord (some params)).getD (Value.obj []))
        = Value.vsize params := by omega
    rw [heq]
    exact Prod.Lex.right _ (by omega)

end

end Conv

/-! ## SDK event mapper

Embedding of `CodexSdkClient.consumeTurnEvents`
(src/cli/src/codex/codexSdkClient.ts).  The client's buffers and the
loop-local `reasoningItemIds` set become `Sdk.SdkState`; each SDK event is
processed by `Sdk.sdkStep`, which returns the new state and the canonical
events handed to the notification handler (in emission order).
`randomUUID()` is modelled by a counter producing fresh opaque strings. -/

namespace Sdk

open Value

/-- Insertion-ordered string set membership (`Set.has`). -/
def sHas (l : List String) (x : String) : Bool := l.contains x

/-- `Set.add`. -/
def sAdd (l : List String) (x : String) : List String :=
  if l.contains x then l else l ++ [x]

/-- `normalizeItemType` of the SDK client: lower-case, keep `[a-z0-9]`. -/
def normalizeItemType (v : Option Value) : Option String :=
  match asString v with
  | none => none
  | some raw => some ⟨(lowerStr raw).data.filter
      (fun c => ('a' ≤ c && c ≤ 'z') || ('0' ≤ c && c ≤ '9'))⟩

/-- `extractTextFromContent`. -/
def extractTextFromContent : Option Value → Option String
  | some (.str s) => if s.length > 0 then some s else none
  | some (.arr xs) =>
      let parts := xs.filterMap (fun e =>
        (asRecord (some e)).bind (fun r =>
          asString (jsOr (getField r "text") (getField r "value"))))
      if parts.length = 0 then none else some (String.intercalate "\n" parts)
  | _ => none

mutual
/-- `JSON.stringify` (string escaping is not modelled; no claim depends on
the rendering of special characters). -/
def jsonStringify : Value → String
  | .null => "null"
  | .bool b => if b then "true" else "false"
  | .num n => toString n
  | .str s => "\"" ++ s ++ "\""
  | .arr xs => "[" ++ String.intercalate "," (jsonStringifyList xs) ++ "]"
  | .obj fs => "\x7b" ++ String.intercalate "," (jsonStringifyFields fs) ++ "\x7d"

/-- Stringify the elements of an array. -/
def jsonStringifyList : List Value → List String
  | [] => []
  | x :: xs => jsonStringify x :: jsonStringifyList xs

/-- Stringify the fields of an object. -/
def jsonStringifyFields : List (String × Value) → List String
  | [] => []
  | (k, v) :: fs => ("\"" ++ k ++ "\":" ++ jsonStringify v) :: jsonStringifyFields fs
end

/-- `toText`. -/
def toText : Option Value → String
  | some (.str s) => s
  | some (.num n) => toString n
  | some (.bool b) => if b then "true" else "false"
  | some .null => ""
  | none => ""
  | some v => jsonStringify v

/-- A fresh `randomUUID()` result. -/
def genUuid (n : Nat) : String := "uuid-" ++ toString n

/-- The SDK client's per-turn mapper state. -/
structure SdkState where
  reasoningItemIds : List String
  reasoningBuffers : List (String × String)
  commandOutputBuffers : List (String × String)
  toolCallCommandLabels : List (String × String)
  uuidCount : Nat
deriving Repr, DecidableEq

/-- Fresh state at the start of `consumeTurnEvents`. -/
def SdkState.init : SdkState := ⟨[], [], [], [], 0⟩

/-- One iteration of the `for await` loop of `consumeTurnEvents`: the state
update and the canonical events emitted for one SDK event. -/
def sdkStep (turnId : String) (st : SdkState) (ev : Value) : SdkState × List Value :=
  match asRecord (some ev) with
  | none => (st, [])
  | some er =>
    match asString (getField er "type") with
    | none => (st, [])
    | some eventType =>
      if eventType = "thread.started" then
        match asString (getField er "thread_id") with
        | some tid => (st, [obj [("type", str "thread_started"), ("thread_id", str tid)]])
        | none => (st, [])
      else if eventType = "turn.started" then
        ({ st with reasoningItemIds := [] },
          [obj [("type", str "task_started"), ("turn_id", str turnId)]])
      else if eventType = "turn.completed" then
        let usageEvents := match asRecord (getField er "usage") with
          | some u => [obj [("type", str "token_count"), ("info", u)]]
          | none => []
        let status := (asString (getField er "status")).map lowerStr
        if status = some "interrupted" ∨ status = some "cancelled"
            ∨ status = some "canceled" ∨ status = some "aborted" then
          (st, usageEvents ++ [obj [("type", str "turn_aborted"), ("turn_id", str turnId)]])
        else if status = some "failed" ∨ status = some "error" then
          let errorMessage := match asString (optGet (asRecord (getField er "error")) "message") with
            | some m => some m
            | none => asString (getField er "message")
          (st, usageEvents ++ [obj (("type", str "task_failed") :: ("turn_id", str turnId)
            :: optEntryS "error" errorMessage)])
        else
          (st, usageEvents ++ [obj [("type", str "task_complete"), ("turn_id", str turnId)]])
      else if eventType = "turn.aborted" ∨ eventType = "turn.interrupted"
          ∨ eventType = "turn.cancelled" ∨ eventType = "turn.canceled" then
        (st, [obj [("type", str "turn_aborted"), ("turn_id", str turnId)]])
      else if eventType = "turn.failed" ∨ eventType = "turn.error" then
        let errorMessage := match asString (optGet (asRecord (getField er "error")) "message") with
          | some m => some m
          | none => asString (getField er "message")
        (st, [obj (("type", str "task_failed") :: ("turn_id", str turnId)
          :: optEntryS "error" errorMessage)])
      else if eventType = "stream_error" ∨ eventType = "stream.error" then
        let errorRecord := asRecord (getField er "error")
        let message := ((asString (getField er "message")).orElse
          (fun _ => asString (optGet errorRecord "message"))).getD "Unknown SDK stream error"
        let additionalDetails := jsOr (getField er "additional_details")
          (jsOr (getField er "additionalDetails")
            (jsOr (optGet errorRecord "additional_details")
              (optGet errorRecord "additionalDetails")))
        (st, [obj ([("type", str "stream_error"), ("message", str message)]
          ++ optEntryV "additional_details" additionalDetails)])
      else if eventType = "exec_approval_request" ∨ eventType = "exec.approval_request"
          ∨ eventType = "approval.requested" then
        let callIdOpt := asString (jsOr (getField er "call_id")
          (jsOr (getField er "callId") (getField er "id")))
        let (st1, callId) := match callIdOpt with
          | some c => (st, c)
          | none => ({ st with uuidCount := st.uuidCount + 1 }, genUuid st.uuidCount)
        (st1, [obj (("type", str "exec_approval_request") :: ("call_id", str callId)
          :: optEntryS "command" (asString (getField er "command"))
          ++ optEntryS "cwd" (asString (getField er "cwd"))
          ++ optEntryS "message" (asString (getField er "message"))
          ++ optEntryS "tool" (asString (getField er "tool")))])
      else if eventType = "error" then
        let errorRecord := asRecord (getField er "error")
        let message := ((asString (getField er "message")).orElse
          (fun _ => asString (optGet errorRecord "message"))).getD "Unknown SDK stream error"
        let additionalDetails := jsOr (getField er "additional_details")
          (jsOr (getField er "additionalDetails")
            (jsOr (optGet errorRecord "additional_details")
              (optGet errorRecord "additionalDetails")))
        (st, [obj ([("type", str "error"), ("message", str message)]
          ++ optEntryV "additional_details" additionalDetails)])
      else if eventType = "item.started" ∨ eventType = "item.updated"
          ∨ eventType = "item.completed" then
        match asRecord (getField er "item") with
        | none => (st, [])
        | some item =>
          match normalizeItemType (getField item "type"), asString (getField item "id") with
          | some itemType, some itemId =>
            if itemType = "agentmessage" then
              if eventType = "item.completed" then
                match (asString (getField item "text")).orElse
                    (fun _ => extractTextFromContent (getField item "content")) with
                | some text => (st, [obj [("type", str "agent_message"), ("message", str text)]])
                | none => (st, [])
              else (st, [])
            else if itemType = "reasoning" then
              let (st1, breakEvents) :=
                if eventType = "item.started" then
                  if ¬ sHas st.reasoningItemIds itemId = true ∧ st.reasoningItemIds.length > 0 then
                    ({ st with reasoningItemIds := sAdd st.reasoningItemIds itemId },
                      [obj [("type", str "agent_reasoning_section_break")]])
                  else
                    ({ st with reasoningItemIds := sAdd st.reasoningItemIds itemId }, [])
                else if eventType = "item.updated" ∧ ¬ sHas st.reasoningItemIds itemId = true then
                  if st.reasoningItemIds.length > 0 then
                    ({ st with reasoningItemIds := sAdd st.reasoningItemIds itemId },
                      [obj [("type", str "agent_reasoning_section_break")]])
                  else
                    ({ st with reasoningItemIds := sAdd st.reasoningItemIds itemId }, [])
                else (st, [])
              let text := ((asString (getField item "text")).orElse
                (fun _ => extractTextFromContent (getField item "content"))).getD ""
              if eventType = "item.updated" then
                let prev := (mget st1.reasoningBuffers itemId).getD ""
                let deltaEvents :=
                  if text.length > prev.length ∧ strStartsWith text prev = true then
                    let delta := strDrop text prev.length
                    if delta.length > 0 then
                      [obj [("type", str "agent_reasoning_delta"), ("delta", str delta)]]
                    else []
                  else []
                ({ st1 with reasoningBuffers := mset st1.reasoningBuffers itemId text },
                  breakEvents ++ deltaEvents)
              else if eventType = "item.completed" then
                let full := if text ≠ "" then some text else mget st1.reasoningBuffers itemId
                let evs := match strTruthy full with
                  | some f => [obj [("type", str "agent_reasoning"), ("text", str f)]]
                  | none => []
                ({ st1 with reasoningBuffers := mdel st1.reasoningBuffers itemId },
                  breakEvents ++ evs)
              else (st1, breakEvents)
            else if itemType = "commandexecution" then
              let command := asString (getField item "command")
              let output := (asString (getField item "aggregated_output")).getD ""
              if eventType = "item.started" then
                ({ st with commandOutputBuffers := mset st.commandOutputBuffers itemId output },
                  [obj (("type", str "exec_command_begin") :: ("call_id", str itemId)
                    :: optEntryS "command" command)])
              else if eventType = "item.updated" then
                ({ st with commandOutputBuffers := mset st.commandOutputBuffers itemId output }, [])
              else if eventType = "item.completed" then
                let status := asString (getField item "status")
                let exitCode := asNumber (getField item "exit_code")
                let finalOutput := if output ≠ "" then output
                  else (mget st.commandOutputBuffers itemId).getD ""
                ({ st with commandOutputBuffers := mdel st.commandOutputBuffers itemId },
                  [obj (("type", str "exec_command_end") :: ("call_id", str itemId)
                    :: optEntryS "command" command
                    ++ optEntryS "output" (strTruthy (some finalOutput))
                    ++ optEntryS "status" status
                    ++ Conv.optEntryI "exit_code" exitCode)])
              else (st, [])
            else if itemType = "filechange" then
              let changes := match getField item "changes" with
                | some (.arr xs) => Value.arr xs
                | _ => Value.arr []
              if eventType = "item.started" then
                (st, [obj [("type", str "patch_apply_begin"), ("call_id", str itemId),
                  ("changes", changes)]])
              else if eventType = "item.completed" then
                let status := asString (getField item "status")
                (st, [obj [("type", str "patch_apply_end"), ("call_id", str itemId),
                  ("changes", changes),
                  ("success", Value.bool (decide (status ≠ some "failed")))]])
              else (st, [])
            else if itemType = "execapprovalrequest" ∨ itemType = "approvalrequest" then
              (st, [obj (("type", str "exec_approval_request") :: ("call_id", str itemId)
                :: optEntryS "command" (asString (getField item "command"))
                ++ optEntryS "cwd" (asString (getField item "cwd"))
                ++ optEntryS "message" (asString (getField item "message"))
                ++ optEntryS "tool" (asString (getField item "tool"))
                ++ optEntryS "status" (asString (getField item "status")))])
            else if itemType = "mcptoolcall" then
              let server := (asString (getField item "server")).getD "mcp"
              let tool := (asString (getField item "tool")).getD "tool"
              let commandLabel := (mget st.toolCallCommandLabels itemId).getD
                ("mcp:" ++ server ++ "/" ++ tool)
              if eventType = "item.started" then
                ({ st with toolCallCommandLabels := mset st.toolCallCommandLabels itemId commandLabel },
                  [obj [("type", str "exec_command_begin"), ("call_id", str itemId),
                    ("command", str commandLabel)]])
              else if eventType = "item.completed" then
                let status := asString (getField item "status")
                let result := asRecord (getField item "result")
                let resultContent := jsOr (optGet result "structured_content") (optGet result "content")
                let errorMessage := asString (optGet (asRecord (getField item "error")) "message")
                let output := toText resultContent
                ({ st with toolCallCommandLabels := mdel st.toolCallCommandLabels itemId },
                  [obj (("type", str "exec_command_end") :: ("call_id", str itemId)
                    :: ("command", str commandLabel)
                    :: optEntryS "output" (strTruthy (some output))
                    ++ optEntryS "error" errorMessage
                    ++ optEntryS "status" status)])
              else (st, [])
            else if itemType = "websearch" then
              let query := (asString (getField item "query")).getD ""
              let commandLabel := (mget st.toolCallCommandLabels itemId).getD
                (if query ≠ "" then "web_search " ++ query else "web_search")
              if eventType = "item.started" then
                ({ st with toolCallCommandLabels := mset st.toolCallCommandLabels itemId commandLabel },
                  [obj [("type", str "exec_command_begin"), ("call_id", str itemId),
                    ("command", str commandLabel)]])
              else if eventType = "item.completed" then
                ({ st with toolCallCommandLabels := mdel st.toolCallCommandLabels itemId },
                  [obj [("type", str "exec_command_end"), ("call_id", str itemId),
                    ("command", str commandLabel),
                    ("output", str (if query ≠ "" then "Searched web: " ++ query
                      else "Web search completed")),
                    ("status", str "completed")]])
              else (st, [])
            else if itemType = "todolist" then
              if eventType = "item.updated" ∨ eventType = "item.completed" then
                let todos := match getField item "items" with
                  | some (.arr xs) => xs
                  | _ => match getField item "todos" with
                    | some (.arr xs) => xs
                    | _ => []
                (st, [obj [("type", str "todo_list"), ("items", Value.arr todos)]])
              else (st, [])
            else if itemType = "error" ∧ eventType = "item.completed" then
              let message := (asString (getField item "message")).getD "SDK item error"
              (st, [obj [("type", str "error"), ("message", str message)]])
            else (st, [])
          | _, _ => (st, [])
      else (st, [])

/-- Fold of `sdkStep` over a list of SDK events, accumulating emissions. -/
def sdkRun (turnId : String) : SdkState → List Value → SdkState × List Value
  | st, [] => (st, [])
  | st, ev :: evs =>
      let (st1, out1) := sdkStep turnId st ev
      let (st2, out2) := sdkRun turnId st1 evs
      (st2, out1 ++ out2)

end Sdk

/-! ## Remote launcher event demultiplexer and watchdog

Embedding of the `runMainLoop` closures of the Codex remote launcher
(`unwrapMcpWrapperEvent`, `handleCodexEvent`, `markTurnProgress`,
`startTurnTracking`, `clearTurnTracking` and the watchdog interval body).
`handleCodexEvent` only reads and mutates launcher state and calls its
collaborators (message buffer, hub client, processors); the collaborator
calls are reified as an `Action` trace in call order.  `randomUUID()` is a
counter, as in the SDK embedding; `Date.now()` is the `now` parameter. -/

namespace Launcher

open Value

/-- Which transport the launcher was constructed with. -/
structure LCfg where
  useAppServer : Bool
  useSdk : Bool
deriving Repr, DecidableEq

/-- `useAsyncTurnClient = useAppServer || useSdk`. -/
def LCfg.useAsyncTurnClient (c : LCfg) : Bool := c.useAppServer || c.useSdk

/-- The MCP transport (neither app-server nor SDK). -/
def LCfg.mcp : LCfg := ⟨false, false⟩

/-- Launcher state touched by `handleCodexEvent` and the turn tracking. -/
structure LState where
  currentThreadId : Option String
  currentTurnId : Option String
  thinking : Bool
  turnInFlight : Bool
  lastTurnProgressAt : Nat
  turnWatchdogNotified : Bool
  turnWatchdogTimer : Bool
  wasCreated : Bool
  currentModeHash : Option String
  uuidCount : Nat
deriving Repr, DecidableEq

/-- Idle launcher state. -/
def LState.idle : LState := ⟨none, none, false, false, 0, false, false, false, none, 0⟩

/-- Calls `handleCodexEvent` makes on its collaborators, in order. -/
inductive Action where
  | bufferAdd (text kind : String)
  | sendSessionEvent (v : Value)
  | sendCodexMessage (v : Value)
  | onSessionFound (id : String)
  | onThinkingChange (b : Bool)
  | permissionReset
  | reasoningSectionBreak
  | reasoningDelta (delta : String)
  | reasoningComplete (text : String)
  | reasoningAbort
  | diffProcess (diff : String)
  | diffReset
  | converterReset
  | clearMcpSession
  | clearSdkThread
deriving Repr, DecidableEq

/-- `normalizeCommand`. -/
def normalizeCommand : Option Value → Option String
  | some (.str s) =>
      let t := trimStr s
      if t.length > 0 then some t else none
  | some (.arr xs) =>
      let joined := String.intercalate " "
        (xs.filterMap (fun v => match v with | .str s => some s | _ => none))
      if joined.length > 0 then some joined else none
  | _ => none

/-- `formatOutputPreview` (same shape as the SDK client's `toText`). -/
def formatOutputPreview : Option Value → String
  | some (.str s) => s
  | some (.num n) => toString n
  | some (.bool b) => if b then "true" else "false"
  | some .null => ""
  | none => ""
  | some v => Sdk.jsonStringify v

/-- `normalizeChanges`: any object passes through (arrays included, which
makes the source's array loop unreachable); anything else becomes `{}`. -/
def normalizeChanges (value : Option Value) : Value :=
  match asRecord value with
  | some r => r
  | none => Value.obj []

/-- `Object.keys(x).length`: named keys of an object, index keys of an
array. -/
def objKeysCount : Value → Nat
  | .obj fs => (fs.map Prod.fst).eraseDups.length
  | .arr xs => xs.length
  | _ => 0

/-- `normalizeTodoEntries`. -/
def normalizeTodoEntries (value : Option Value) : List Value :=
  match value with
  | some (.arr xs) => xs.filterMap (fun it =>
      match asRecord (some it) with
      | none => none
      | some r =>
        match asString (jsOr (getField r "text") (jsOr (getField r "content")
            (jsOr (getField r "description") (getField r "title")))) with
        | none => none
        | some content =>
          let rawStatus := asString (getField r "status")
          let completed := getField r "completed" = some (.bool true)
          let status : String :=
            if completed then "completed"
            else if rawStatus = some "in_progress" ∨ rawStatus = some "in-progress" then "in_progress"
            else if rawStatus = some "completed" then "completed"
            else "pending"
          let rawPriority := asString (getField r "priority")
          let priority : String :=
            if rawPriority = some "high" ∨ rawPriority = some "low" ∨ rawPriority = some "medium"
            then rawPriority.getD "medium" else "medium"
          some (Value.obj [("content", Value.str content), ("priority", Value.str priority),
            ("status", Value.str status)]))
  | _ => []

/-- The payload-type normalization of the MCP unwrapper: trim, lower-case,
strip a leading `codex/event/`, collapse runs of `/`, whitespace and `-`
to `_`. -/
def mcpNormalizeType (s : String) : String :=
  ⟨collapseRuns isWsDashSlash (stripPrefixStr (lowerStr (trimStr s)) "codex/event/").data⟩

/-- `unwrapMcpWrapperEvent`: strips one `event_msg` envelope (and only
`event_msg` — every other wrapper type, `response_item` included, returns
`null`).  When all of `items ?? todos ?? entries` are nullish the source
stores `items: undefined`; an absent key models that (both are nullish for
every later read). -/
def unwrapMcpWrapperEvent (msg : Value) : Option Value :=
  match asString (getField msg "type"), asRecord (getField msg "payload") with
  | some wrapperType, some payload =>
    if wrapperType = "event_msg" then
      match asString (getField payload "type") with
      | none => none
      | some payloadTypeRaw =>
        let payloadType : String := mcpNormalizeType payloadTypeRaw
        if payloadType = "plan" then
          let base := setKey (recFields payload) "type" (Value.str "todo_list")
          match jsOr (getField payload "items")
              (jsOr (getField payload "todos") (getField payload "entries")) with
          | some itemsVal => some (Value.obj (setKey base "items" itemsVal))
          | none => some (Value.obj base)
        else
          some (Value.obj (setKey (recFields payload) "type" (Value.str payloadType)))
    else none
  | _, _ => none

/-- `shouldTreatAsTerminalEvent`. -/
def shouldTreatAsTerminalEvent (msgType : String) (msg : Value) : Bool :=
  if msgType = "task_complete" ∨ msgType = "turn_aborted" ∨ msgType = "task_failed" then true
  else if msgType = "error" ∨ msgType = "stream_error" then
    !(getField msg "will_retry" = some (Value.bool true)
      || getField msg "willRetry" = some (Value.bool true))
  else false

/-- `String.prototype.includes` on character lists. -/
def hasSubstr (pat : List Char) : List Char → Bool
  | [] => pat.isPrefixOf []
  | c :: t => pat.isPrefixOf (c :: t) || hasSubstr pat t

/-- `shouldForceSessionReset`: the session-invalidation substring set. -/
def shouldForceSessionReset (rawMessage : String) : Bool :=
  let m := (lowerStr rawMessage).data
  hasSubstr "no active session".data m
  || hasSubstr "session not found".data m
  || hasSubstr "conversation not found".data m
  || hasSubstr "invalid session".data m
  || hasSubstr "invalid conversation".data m
  || hasSubstr "thread not found".data m

/-- JavaScript truthiness (`Boolean(v)`); `none` is `undefined`. -/
def jsTruthy : Option Value → Bool
  | none => false
  | some .null => false
  | some (.bool b) => b
  | some (.num n) => n ≠ 0
  | some (.str s) => s.length > 0
  | some (.arr _) => true
  | some (.obj _) => true

/-- `formatAdditionalDetails`. -/
def formatAdditionalDetails (v : Option Value) : Option String :=
  match v with
  | none => none
  | some .null => none
  | some x =>
      let preview := trimStr (formatOutputPreview (some x))
      if preview.length = 0 then none
      else if preview.length ≤ 600 then some preview
      else some (⟨preview.data.take 600⟩ ++ "...")

/-- `markTurnProgress`. -/
def markTurnProgress (cfg : LCfg) (now : Nat) (s : LState) : LState :=
  if cfg.useAsyncTurnClient ∧ s.turnInFlight then { s with lastTurnProgressAt := now } else s

/-- `clearTurnWatchdog`. -/
def clearTurnWatchdog (s : LState) : LState :=
  { s with turnWatchdogTimer := false, lastTurnProgressAt := 0, turnWatchdogNotified := false }

/-- `startTurnTracking`. -/
def startTurnTracking (cfg : LCfg) (now : Nat) (s : LState) : LState × List Action :=
  if cfg.useAsyncTurnClient = false then (s, [])
  else
    let s1 := { s with turnInFlight := true, lastTurnProgressAt := now,
                       turnWatchdogNotified := false }
    let (s2, acts) :=
      if s1.thinking = false then ({ s1 with thinking := true }, [Action.onThinkingChange true])
      else (s1, [])
    let s3 := if s2.turnWatchdogTimer = false then { s2 with turnWatchdogTimer := true } else s2
    (s3, acts)

/-- `clearTurnTracking` (the `reason` argument only feeds a debug log). -/
def clearTurnTracking (cfg : LCfg) (s : LState) : LState × List Action :=
  let s1 := if cfg.useAsyncTurnClient then clearTurnWatchdog { s with turnInFlight := false } else s
  let s2 := { s1 with currentTurnId := none }
  let (s3, thinkActs) :=
    if s2.thinking then ({ s2 with thinking := false }, [Action.onThinkingChange false])
    else (s2, [])
  (s3, thinkActs ++ [Action.permissionReset, Action.reasoningAbort, Action.diffReset]
    ++ (if cfg.useAppServer then [Action.converterReset] else []))

/-- The watchdog warning text. -/
def stuckWarning : String :=
  "Codex might be stuck (no visible progress for 90s). Try Abort, Recover Session, or reconnect."

/-- The body of the watchdog `setInterval` callback. -/
def watchdogTick (shouldExit : Bool) (now : Nat) (s : LState) : LState × List Action :=
  if shouldExit ∨ s.turnInFlight = false then (s, [])
  else
    let idleForMs := now - s.lastTurnProgressAt
    if s.turnWatchdogNotified ∨ idleForMs < 90000 then (s, [])
    else
      ({ s with turnWatchdogNotified := true },
        [Action.bufferAdd stuckWarning "status",
         Action.sendSessionEvent (Value.obj [("type", Value.str "message"),
           ("message", Value.str stuckWarning)])])

end Launcher

namespace Launcher

open Value

/-- A `string | null` value for shorthand object properties. -/
def nullableStr : Option String → Value
  | some s => Value.str s
  | none => Value.null

/-- The non-recursive remainder of `handleCodexEvent` (everything after the
wrapper-unwrapping block); `msgType` is the already-extracted event type. -/
def handleCore (cfg : LCfg) (now : Nat) (st : LState) (msg : Value) (msgType : String) :
    LState × List Action :=
  let isTerminalEvent := shouldTreatAsTerminalEvent msgType msg
  if msgType = "thread_started" then
    match asString (jsOr (getField msg "thread_id") (getField msg "threadId")) with
    | some tid => ({ st with currentThreadId := some tid }, [Action.onSessionFound tid])
    | none => (st, [])
  else
    -- `task_started` bookkeeping (the source does not return here)
    let (st1, acts1) :=
      if msgType = "task_started" then
        let st' := match asString (jsOr (getField msg "turn_id") (getField msg "turnId")) with
          | some t => { st with currentTurnId := some t }
          | none => st
        if cfg.useAsyncTurnClient then startTurnTracking cfg now st'
        else if st'.thinking = false then
          ({ st' with thinking := true }, [Action.onThinkingChange true])
        else (st', [])
      else (st, [])
    let st2 := if isTerminalEvent then { st1 with currentTurnId := none } else st1
    let st3 := if cfg.useAsyncTurnClient ∧ st2.turnInFlight then markTurnProgress cfg now st2 else st2
    -- the message-buffer / error `else if` chain
    let (st4, acts2) :=
      if msgType = "agent_message" then
        (st3, match asString (getField msg "message") with
          | some m => [Action.bufferAdd m "assistant"]
          | none => [])
      else if msgType = "agent_reasoning" then
        (st3, match asString (getField msg "text") with
          | some t =>
              [Action.bufferAdd ("[Thinking] " ++ (⟨t.data.take 100⟩ : String) ++ "...") "system"]
          | none => [])
      else if msgType = "exec_command_begin" then
        (st3, [Action.bufferAdd
          ("Executing: " ++ ((normalizeCommand (getField msg "command")).getD "command")) "tool"])
      else if msgType = "exec_command_end" then
        let output := jsOr (getField msg "output")
          (jsOr (getField msg "error") (some (Value.str "Command completed")))
        let outputText := formatOutputPreview output
        let truncated : String := ⟨outputText.data.take 200⟩
        (st3, [Action.bufferAdd
          ("Result: " ++ truncated ++ (if outputText.length > 200 then "..." else "")) "result"])
      else if msgType = "task_started" then
        (st3, [Action.bufferAdd "Starting task..." "status"])
      else if msgType = "task_complete" then
        (st3, [Action.bufferAdd "Task completed" "status"])
      else if msgType = "turn_aborted" then
        (st3, [Action.bufferAdd "Turn aborted" "status"])
      else if msgType = "task_failed" then
        (st3, [Action.bufferAdd (match asString (getField msg "error") with
          | some e => "Task failed: " ++ e
          | none => "Task failed") "status"])
      else if msgType = "stream_error" then
        let message := (asString (getField msg "message")).getD "Stream error"
        let detailsText := formatAdditionalDetails
          (jsOr (getField msg "additional_details") (getField msg "additionalDetails"))
        let baseActs := [Action.bufferAdd ("Error: " ++ message) "status",
          Action.sendSessionEvent (Value.obj [("type", Value.str "message"),
            ("message", Value.str (match detailsText with
              | some d => "Stream error: " ++ message ++ "\nDetails: " ++ d
              | none => "Stream error: " ++ message))])]
        if shouldForceSessionReset message then
          ({ st3 with wasCreated := false, currentModeHash := none },
            baseActs
              ++ (if cfg.useAppServer = false ∧ cfg.useSdk = false
                  then [Action.clearMcpSession] else [])
              ++ (if cfg.useSdk then [Action.clearSdkThread] else []))
        else (st3, baseActs)
      else if msgType = "error" then
        let message := (asString (getField msg "message")).getD "Unknown error"
        let detailsText := formatAdditionalDetails
          (jsOr (getField msg "additional_details") (getField msg "additionalDetails"))
        let baseActs := [Action.bufferAdd ("Error: " ++ message) "status",
          Action.sendSessionEvent (Value.obj [("type", Value.str "message"),
            ("message", Value.str (match detailsText with
              | some d => "Codex error: " ++ message ++ "\nDetails: " ++ d
              | none => "Codex error: " ++ message))])]
        if shouldForceSessionReset message then
          ({ st3 with wasCreated := false, currentModeHash := none },
            baseActs
              ++ (if cfg.useAppServer = false ∧ cfg.useSdk = false
                  then [Action.clearMcpSession] else [])
              ++ (if cfg.useSdk then [Action.clearSdkThread] else []))
        else (st3, baseActs)
      else (st3, [])
    -- terminal transition and hub ready
    let (st5, acts3) :=
      if isTerminalEvent then
        let (s', a') := clearTurnTracking cfg st4
        (s', a' ++ [Action.sendSessionEvent (Value.obj [("type", Value.str "ready")])])
      else (st4, [])
    -- the independent per-type dispatch `if`s (each on a distinct type)
    let (st6, acts4) :=
      if msgType = "agent_reasoning_section_break" then
        (st5, [Action.reasoningSectionBreak])
      else if msgType = "agent_reasoning_delta" then
        (st5, match asString (getField msg "delta") with
          | some d => [Action.reasoningDelta d]
          | none => [])
      else if msgType = "agent_reasoning" then
        (st5, match asString (getField msg "text") with
          | some t => [Action.reasoningComplete t]
          | none => [])
      else if msgType = "agent_message" then
        match asString (getField msg "message") with
        | some m =>
            ({ st5 with uuidCount := st5.uuidCount + 1 },
              [Action.sendCodexMessage (Value.obj [("type", Value.str "message"),
                ("message", Value.str m), ("id", Value.str (Sdk.genUuid st5.uuidCount))])])
        | none => (st5, [])
      else if msgType = "exec_command_begin" ∨ msgType = "exec_approval_request" then
        match asString (jsOr (getField msg "call_id") (getField msg "callId")) with
        | some callId =>
            let inputs := removeKey (removeKey (removeKey (recFields msg) "type") "call_id") "callId"
            ({ st5 with uuidCount := st5.uuidCount + 1 },
              [Action.sendCodexMessage (Value.obj [("type", Value.str "tool-call"),
                ("name", Value.str "CodexBash"), ("callId", Value.str callId),
                ("input", Value.obj inputs), ("id", Value.str (Sdk.genUuid st5.uuidCount))])])
        | none => (st5, [])
      else if msgType = "exec_command_end" then
        match asString (jsOr (getField msg "call_id") (getField msg "callId")) with
        | some callId =>
            let output := removeKey (removeKey (removeKey (recFields msg) "type") "call_id") "callId"
            ({ st5 with uuidCount := st5.uuidCount + 1 },
              [Action.sendCodexMessage (Value.obj [("type", Value.str "tool-call-result"),
                ("callId", Value.str callId), ("output", Value.obj output),
                ("id", Value.str (Sdk.genUuid st5.uuidCount))])])
        | none => (st5, [])
      else if msgType = "token_count" then
        ({ st5 with uuidCount := st5.uuidCount + 1 },
          [Action.sendCodexMessage
            (Value.obj (setKey (recFields msg) "id" (Value.str (Sdk.genUuid st5.uuidCount))))])
      else if msgType = "todo_list" then
        let entries := normalizeTodoEntries (jsOr (getField msg "items")
          (jsOr (getField msg "todos") (getField msg "entries")))
        if entries.length > 0 then
          (st5, [Action.sendCodexMessage (Value.obj [("type", Value.str "plan"),
            ("entries", Value.arr entries)])])
        else (st5, [])
      else if msgType = "plan" then
        let entries := normalizeTodoEntries (jsOr (getField msg "entries")
          (jsOr (getField msg "items") (getField msg "todos")))
        if entries.length > 0 then
          (st5, [Action.sendCodexMessage (Value.obj [("type", Value.str "plan"),
            ("entries", Value.arr entries)])])
        else (st5, [])
      else if msgType = "patch_apply_begin" then
        match asString (jsOr (getField msg "call_id") (getField msg "callId")) with
        | some callId =>
            let changes := normalizeChanges (getField msg "changes")
            let changeCount := objKeysCount changes
            let filesMsg := if changeCount = 1 then "1 file" else toString changeCount ++ " files"
            -- `auto_approved: msg.auto_approved ?? msg.autoApproved` stores
            -- `undefined` when both are missing; an absent key models that
            let autoApproved := jsOr (getField msg "auto_approved") (getField msg "autoApproved")
            ({ st5 with uuidCount := st5.uuidCount + 1 },
              [Action.bufferAdd ("Modifying " ++ filesMsg ++ "...") "tool",
               Action.sendCodexMessage (Value.obj [("type", Value.str "tool-call"),
                 ("name", Value.str "CodexPatch"), ("callId", Value.str callId),
                 ("input", Value.obj (optEntryV "auto_approved" autoApproved
                   ++ [("changes", changes)])),
                 ("id", Value.str (Sdk.genUuid st5.uuidCount))])])
        | none => (st5, [])
      else if msgType = "patch_apply_end" then
        match asString (jsOr (getField msg "call_id") (getField msg "callId")) with
        | some callId =>
            let stdout := asString (getField msg "stdout")
            let stderr := asString (getField msg "stderr")
            let success := jsTruthy (getField msg "success")
            let bufAct :=
              if success then
                Action.bufferAdd (⟨(stdout.getD "Files modified successfully").data.take 200⟩) "result"
              else
                Action.bufferAdd
                  ("Error: " ++ (⟨(stderr.getD "Failed to modify files").data.take 200⟩ : String))
                  "result"
            ({ st5 with uuidCount := st5.uuidCount + 1 },
              [bufAct,
               Action.sendCodexMessage (Value.obj [("type", Value.str "tool-call-result"),
                 ("callId", Value.str callId),
                 ("output", Value.obj [("stdout", nullableStr stdout),
                   ("stderr", nullableStr stderr), ("success", Value.bool success)]),
                 ("id", Value.str (Sdk.genUuid st5.uuidCount))])])
        | none => (st5, [])
      else if msgType = "turn_diff" then
        (st5, match asString (getField msg "unified_diff") with
          | some d => [Action.diffProcess d]
          | none => [])
      else (st5, [])
    (st6, acts1 ++ acts2 ++ acts3 ++ acts4)

/-- First component of the termination measure of `handleCodexEvent`: does
this event look like an MCP wrapper that would be unwrapped? -/
def wrapFlag (cfg : LCfg) (v : Value) : Nat :=
  if cfg.useAppServer = false ∧ cfg.useSdk = false ∧
      (asString (Value.getField v "type") = some "event_msg"
        ∨ asString (Value.getField v "type") = some "response_item")
  then 1 else 0

theorem lookupField_two_vsize {fs : List (String × Value)} {k1 k2 : String}
    {v1 v2 : Value} (hne : k1 ≠ k2) (h1 : lookupField fs k1 = some v1)
    (h2 : lookupField fs k2 = some v2) :
    2 + vsize v1 + vsize v2 ≤ vsizeFields fs := by
  induction fs with
  | nil => simp [lookupField] at h1
  | cons kv fs ih =>
      obtain ⟨l, w⟩ := kv
      simp only [lookupField] at h1 h2
      by_cases hl1 : l = k1
      · rw [if_pos hl1] at h1
        have hl2 : ¬ l = k2 := fun hc => hne (hl1.symm.trans hc)
        rw [if_neg hl2] at h2
        injection h1 with h1
        subst h1
        have := lookupField_vsize h2
        simp only [vsizeFields]
        omega
      · rw [if_neg hl1] at h1
        by_cases hl2 : l = k2
        · rw [if_pos hl2] at h2
          injection h2 with h2
          subst h2
          have := lookupField_vsize h1
          simp only [vsizeFields]
          omega
        · rw [if_neg hl2] at h2
          have := ih h1 h2
          simp only [vsizeFields]
          omega

theorem vsizeFields_setKey_str (fs : List (String × Value)) (k s : String) :
    vsizeFields (setKey fs k (Value.str s)) ≤ vsizeFields fs + 2 := by
  induction fs with
  | nil => simp [setKey, vsizeFields, vsize]
  | cons kv fs ih =>
      obtain ⟨l, w⟩ := kv
      by_cases hl : l = k
      · simp only [setKey, if_pos hl, vsizeFields, vsize]
        have := Conv.vsize_pos w
        omega
      · simp only [setKey, if_neg hl, vsizeFields]
        omega

theorem vsize_obj_setKey_str (p : Value) (k s : String) :
    vsize (Value.obj (setKey (recFields p) k (Value.str s))) ≤ vsize p + 2 := by
  cases p with
  | obj fs =>
      simp only [recFields, vsize]
      have := vsizeFields_setKey_str fs k s
      omega
  | null => simp only [recFields, setKey, vsize, vsizeFields]; omega
  | bool b => simp only [recFields, setKey, vsize, vsizeFields]; omega
  | num n => simp only [recFields, setKey, vsize, vsizeFields]; omega
  | str t => simp only [recFields, setKey, vsize, vsizeFields]; omega
  | arr xs => simp only [recFields, setKey, vsize, vsizeFields]; omega

/-- `asString (some v) = some s` forces `v` to be that (non-empty) string. -/
theorem asString_some_eq {v : Option Value} {s : String}
    (h : asString v = some s) : v = some (Value.str s) := by
  match v with
  | none => simp [asString] at h
  | some .null => simp [asString] at h
  | some (.bool b) => simp [asString] at h
  | some (.num n) => simp [asString] at h
  | some (.arr xs) => simp [asString] at h
  | some (.obj fs) => simp [asString] at h
  | some (.str t) =>
      simp only [asString] at h
      split at h
      · cases h; rfl
      · cases h

/-- `asRecord o = some r` forces `o = some r` (objects and arrays pass
through unchanged). -/
theorem asRecord_some_eq {o : Option Value} {r : Value}
    (h : asRecord o = some r) : o = some r := by
  match o with
  | none => simp [asRecord] at h
  | some .null => simp [asRecord] at h
  | some (.bool b) => simp [asRecord] at h
  | some (.num n) => simp [asRecord] at h
  | some (.str s) => simp [asRecord] at h
  | some (.arr xs) => simp only [asRecord, Option.some.injEq] at h; rw [h]
  | some (.obj fs) => simp only [asRecord, Option.some.injEq] at h; rw [h]

/-- Each unwrap either leaves the wrapper family (the `plan → todo_list`
remap produces a `todo_list` event) or strictly shrinks the value. -/
theorem unwrap_measure (cfg : LCfg) {msg u : Value}
    (h : unwrapMcpWrapperEvent msg = some u) :
    wrapFlag cfg u = 0 ∨ Value.vsize u < Value.vsize msg := by
  unfold unwrapMcpWrapperEvent at h
  cases hwt : asString (getField msg "type") with
  | none => simp [hwt] at h
  | some wt =>
  cases hp : asRecord (getField msg "payload") with
  | none => simp [hwt, hp] at h
  | some payload =>
  simp only [hwt, hp] at h
  split at h
  case isFalse => simp at h
  case isTrue hev =>
  cases hpt : asString (getField payload "type") with
  | none => simp [hpt] at h
  | some ptRaw =>
  simp only [hpt] at h
  have hgt : getField msg "type" = some (Value.str wt) := asString_some_eq hwt
  have hgp : getField msg "payload" = some payload := asRecord_some_eq hp
  obtain ⟨mfs, rfl⟩ : ∃ mfs, msg = Value.obj mfs := by
    cases msg
    case obj mfs => exact ⟨mfs, rfl⟩
    all_goals simp [getField] at hgt
  simp only [getField] at hgt hgp
  have hsize : 2 + vsize (Value.str wt) + vsize payload ≤ vsizeFields mfs :=
    lookupField_two_vsize (by decide) hgt hgp
  split at h
  · -- plan branch: the unwrapped event's type is `todo_list`
    left
    have hty : getField u "type" = some (Value.str "todo_list") := by
      split at h
      · injection h with h
        subst h
        simp only [getField]
        rw [lookupField_setKey_ne _ _ (by decide)]
        exact lookupField_setKey_self (recFields payload) "type" (Value.str "todo_list")
      · injection h with h
        subst h
        simp only [getField]
        exact lookupField_setKey_self (recFields payload) "type" (Value.str "todo_list")
    simp [wrapFlag, hty, asString]
  · -- non-plan branch: the rebuilt record is strictly smaller
    right
    injection h with h
    subst h
    have hb := vsize_obj_setKey_str payload "type" (mcpNormalizeType ptRaw)
    have hwt1 : vsize (Value.str wt) = 1 := rfl
    simp only [vsize] at hb hsize ⊢
    omega

/-- `handleCodexEvent`: the launcher's canonical-event demultiplexer.  When
the transport is MCP (neither app-server nor SDK) and the event is an
`event_msg` / `response_item` wrapper, a successful unwrap re-dispatches
recursively; everything else falls through to `handleCore`. -/
def handleCodexEvent (cfg : LCfg) (now : Nat) (st : LState) (msg : Value) :
    LState × List Action :=
  match hmt : asString (Value.getField msg "type") with
  | none => (st, [])
  | some msgType =>
    if hwrap : cfg.useAppServer = false ∧ cfg.useSdk = false ∧
        (msgType = "event_msg" ∨ msgType = "response_item") then
      match hunw : unwrapMcpWrapperEvent msg with
      | some unwrapped => handleCodexEvent cfg now st unwrapped
      | none => handleCore cfg now st msg msgType
    else handleCore cfg now st msg msgType
termination_by (wrapFlag cfg msg, Value.vsize msg)
decreasing_by
  have hu := unwrap_measure cfg hunw
  have h1 : wrapFlag cfg msg = 1 := by
    rw [wrapFlag, if_pos]
    refine ⟨hwrap.1, hwrap.2.1, ?_⟩
    rcases hwrap.2.2 with h | h <;> rw [hmt, h]
    · exact Or.inl rfl
    · exact Or.inr rfl
  have hcases : wrapFlag cfg unwrapped = 0 ∨ wrapFlag cfg unwrapped = 1 := by
    rw [wrapFlag]
    split <;> simp
  rcases hcases with h0 | hone
  · have hlt : wrapFlag cfg unwrapped < wrapFlag cfg msg := by omega
    exact Prod.Lex.left _ _ hlt
  · rcases hu with h0 | hvs
    · have hlt : wrapFlag cfg unwrapped < wrapFlag cfg msg := by omega
      exact Prod.Lex.left _ _ hlt
    · have heq : wrapFlag cfg unwrapped = wrapFlag cfg msg := by omega
      rw [heq]
      exact Prod.Lex.right _ hvs

end Launcher

namespace Launcher

open Value

/-- `{ type: 'event_msg', payload }` — the MCP wrapper envelope. -/
def eventMsgWrap (payload : Value) : Value :=
  Value.obj [("type", Value.str "event_msg"), ("payload", payload)]

theorem handleCodexEvent_no_type {cfg : LCfg} {now : Nat} {st : LState} {msg : Value}
    (hmt : asString (Value.getField msg "type") = none) :
    handleCodexEvent cfg now st msg = (st, []) := by
  rw [handleCodexEvent]
  split
  · rfl
  · next mt heq => rw [hmt] at heq; cases heq

theorem handleCodexEvent_unwrap_step {cfg : LCfg} {now : Nat} {st : LState}
    {msg u : Value} {msgType : String}
    (hmt : asString (Value.getField msg "type") = some msgType)
    (h1 : cfg.useAppServer = false) (h2 : cfg.useSdk = false)
    (hty : msgType = "event_msg" ∨ msgType = "response_item")
    (hunw : unwrapMcpWrapperEvent msg = some u) :
    handleCodexEvent cfg now st msg = handleCodexEvent cfg now st u := by
  rw [handleCodexEvent]
  split
  · next heq => rw [hmt] at heq; cases heq
  · next mt heq =>
      rw [hmt] at heq
      injection heq with heq
      subst heq
      rw [dif_pos ⟨h1, h2, hty⟩]
      split
      · next u2 hequ =>
          rw [hunw] at hequ
          injection hequ with hequ
          subst hequ
          rfl
      · next hequ => rw [hunw] at hequ; cases hequ

theorem handleCodexEvent_unwrap_none {cfg : LCfg} {now : Nat} {st : LState}
    {msg : Value} {msgType : String}
    (hmt : asString (Value.getField msg "type") = some msgType)
    (hunw : unwrapMcpWrapperEvent msg = none) :
    handleCodexEvent cfg now st msg = handleCore cfg now st msg msgType := by
  rw [handleCodexEvent]
  split
  · next heq => rw [hmt] at heq; cases heq
  · next mt heq =>
      rw [hmt] at heq
      injection heq with heq
      subst heq
      split
      · split
        · next u2 hequ => rw [hunw] at hequ; cases hequ
        · rfl
      · rfl

theorem handleCodexEvent_not_wrapper {cfg : LCfg} {now : Nat} {st : LState}
    {msg : Value} {msgType : String}
    (hmt : asString (Value.getField msg "type") = some msgType)
    (hno : ¬(msgType = "event_msg" ∨ msgType = "response_item")) :
    handleCodexEvent cfg now st msg = handleCore cfg now st msg msgType := by
  rw [handleCodexEvent]
  split
  · next heq => rw [hmt] at heq; cases heq
  · next mt heq =>
      rw [hmt] at heq
      injection heq with heq
      subst heq
      rw [dif_neg]
      intro hc
      exact hno hc.2.2

end Launcher

namespace Launcher

open Value

theorem unwrap_eventMsgWrap_wrap (E : Value) :
    unwrapMcpWrapperEvent (eventMsgWrap (eventMsgWrap E)) = some (eventMsgWrap E) := rfl

theorem unwrap_eventMsgWrap_of_normal {fs : List (String × Value)} {t : String}
    (ht : Value.lookupField fs "type" = some (Value.str t)) (hlen : 0 < t.length)
    (hnorm : mcpNormalizeType t = t) (hnp : t ≠ "plan") :
    unwrapMcpWrapperEvent (eventMsgWrap (Value.obj fs)) = some (Value.obj fs) := by
  have hps : asString (getField (Value.obj fs) "type") = some t := by
    simp [getField, ht, asString, hlen]
  unfold unwrapMcpWrapperEvent
  have h1 : asString (getField (eventMsgWrap (Value.obj fs)) "type") = some "event_msg" := rfl
  have h2 : asRecord (getField (eventMsgWrap (Value.obj fs)) "payload")
      = some (Value.obj fs) := rfl
  simp only [h1, h2, if_pos rfl, hps, hnorm, if_neg hnp, if_true, recFields]
  rw [setKey_eq_of_lookupField ht]

end Launcher

/-- C9 (amended).  Canonicalization is idempotent over `event_msg` envelope
unwrapping in the MCP event handler: a doubly wrapped event is handled
exactly like the singly wrapped one, for every inner event; and a singly
wrapped event is handled exactly like the bare event whenever the bare
event's declared type is a fixed point of the unwrapper's normalization and
is not the remapped `plan` type.  (Unwrapping a wrapper whose payload type
is not already normal is not equivalent to dispatching the payload
directly; see the counterexample.) -/
theorem c9_envelope_unwrap_idempotence
    (now : Nat) (st : Launcher.LState) (fs : List (String × Value)) (t : String)
    (ht : Value.lookupField fs "type" = some (Value.str t))
    (hlen : 0 < t.length)
    (hnorm : Launcher.mcpNormalizeType t = t)
    (hnp : t ≠ "plan") :
    (∀ E : Value,
      Launcher.handleCodexEvent Launcher.LCfg.mcp now st
          (Launcher.eventMsgWrap (Launcher.eventMsgWrap E))
        = Launcher.handleCodexEvent Launcher.LCfg.mcp now st (Launcher.eventMsgWrap E))
    ∧ Launcher.handleCodexEvent Launcher.LCfg.mcp now st
          (Launcher.eventMsgWrap (Value.obj fs))
        = Launcher.handleCodexEvent Launcher.LCfg.mcp now st (Value.obj fs) := by
  constructor
  · intro E
    exact Launcher.handleCodexEvent_unwrap_step rfl rfl rfl (Or.inl rfl)
      (Launcher.unwrap_eventMsgWrap_wrap E)
  · exact Launcher.handleCodexEvent_unwrap_step rfl rfl rfl (Or.inl rfl)
      (Launcher.unwrap_eventMsgWrap_of_normal ht hlen hnorm hnp)

/-- Witness for C9 (amended): instantiated at a concrete `task_complete`
payload. -/
theorem c9_envelope_unwrap_idempotence_witness :
    Launcher.handleCodexEvent Launcher.LCfg.mcp 0 Launcher.LState.idle
        (Launcher.eventMsgWrap (Value.obj [("type", Value.str "task_complete")]))
      = Launcher.handleCodexEvent Launcher.LCfg.mcp 0 Launcher.LState.idle
        (Value.obj [("type", Value.str "task_complete")]) :=
  (c9_envelope_unwrap_idempotence 0 Launcher.LState.idle
    [("type", Value.str "task_complete")] "task_complete"
    (by decide) (by decide) (by decide) (by decide)).2

/-- C9 counterexample: `event_msg(E) ≢ E` in general.  For the inner event
`{ type: 'Task Complete' }`, the wrapped form normalizes the type and is
handled as a terminal `task_complete` (message-buffer write, processor
resets and a hub `ready` event), while the bare event matches no handler
and produces no effect at all. -/
theorem c9_counterexample :
    (Launcher.handleCodexEvent Launcher.LCfg.mcp 0 Launcher.LState.idle
        (Launcher.eventMsgWrap (Value.obj [("type", Value.str "Task Complete")]))).2
      = [Launcher.Action.bufferAdd "Task completed" "status",
         Launcher.Action.permissionReset, Launcher.Action.reasoningAbort,
         Launcher.Action.diffReset,
         Launcher.Action.sendSessionEvent (Value.obj [("type", Value.str "ready")])]
    ∧ (Launcher.handleCodexEvent Launcher.LCfg.mcp 0 Launcher.LState.idle
        (Value.obj [("type", Value.str "Task Complete")])).2 = [] := by
  have hstep1 : Launcher.handleCodexEvent Launcher.LCfg.mcp 0 Launcher.LState.idle
      (Launcher.eventMsgWrap (Value.obj [("type", Value.str "Task Complete")]))
      = Launcher.handleCodexEvent Launcher.LCfg.mcp 0 Launcher.LState.idle
        (Value.obj [("type", Value.str "task_complete")]) :=
    Launcher.handleCodexEvent_unwrap_step rfl rfl rfl (Or.inl rfl) (by decide)
  have hstep2 : Launcher.handleCodexEvent Launcher.LCfg.mcp 0 Launcher.LState.idle
      (Value.obj [("type", Value.str "task_complete")])
      = Launcher.handleCore Launcher.LCfg.mcp 0 Launcher.LState.idle
        (Value.obj [("type", Value.str "task_complete")]) "task_complete" :=
    Launcher.handleCodexEvent_not_wrapper rfl (by decide)
  have hstep3 : Launcher.handleCodexEvent Launcher.LCfg.mcp 0 Launcher.LState.idle
      (Value.obj [("type", Value.str "Task Complete")])
      = Launcher.handleCore Launcher.LCfg.mcp 0 Launcher.LState.idle
        (Value.obj [("type", Value.str "Task Complete")]) "Task Complete" :=
    Launcher.handleCodexEvent_not_wrapper rfl (by decide)
  constructor
  · rw [hstep1, hstep2]
    decide
  · rw [hstep3]
    decide

namespace Launcher

open Value

/-- The unwrapped event described by spec §4.4, stated from the spec's
words: envelope stripped, payload type normalized (trim, lower-case,
`codex/event/` prefix stripped, separators collapsed to `_`), and a `plan`
payload remapped to a `todo_list` event with the entries mirrored into
`items`. -/
def specMcpUnwrap (payload : Value) (t : String) : Value :=
  if mcpNormalizeType t = "plan" then
    match jsOr (getField payload "items")
        (jsOr (getField payload "todos") (getField payload "entries")) with
    | some itemsVal =>
        Value.obj (setKey (setKey (recFields payload) "type" (Value.str "todo_list"))
          "items" itemsVal)
    | none => Value.obj (setKey (recFields payload) "type" (Value.str "todo_list"))
  else Value.obj (setKey (recFields payload) "type" (Value.str (mcpNormalizeType t)))

theorem unwrap_eq_spec {msg payload : Value} {t : String}
    (hwt : asString (getField msg "type") = some "event_msg")
    (hp : asRecord (getField msg "payload") = some payload)
    (hpt : asString (getField payload "type") = some t) :
    unwrapMcpWrapperEvent msg = some (specMcpUnwrap payload t) := by
  unfold unwrapMcpWrapperEvent specMcpUnwrap
  simp only [hwt, hp, if_pos rfl, if_true, hpt]
  split
  · split <;> rfl
  · rfl

end Launcher

/-- C3 (amended).  In the MCP-transport event handler, an upstream event of
type `event_msg` whose payload is an object with a (string) type is
unwrapped — envelope stripped, payload type normalized, `plan` remapped to
`todo_list` with entries mirrored into `items` — and the unwrapped event is
re-dispatched through the same canonical handling.  (`response_item`
envelopes are NOT unwrapped by the code, contrary to the claim; see the
counterexample.) -/
theorem c3_event_msg_unwrap_redispatch
    (now : Nat) (st : Launcher.LState) (msg payload : Value) (t : String)
    (hwt : asString (Value.getField msg "type") = some "event_msg")
    (hp : asRecord (Value.getField msg "payload") = some payload)
    (hpt : asString (Value.getField payload "type") = some t) :
    Launcher.unwrapMcpWrapperEvent msg = some (Launcher.specMcpUnwrap payload t)
    ∧ Launcher.handleCodexEvent Launcher.LCfg.mcp now st msg
        = Launcher.handleCodexEvent Launcher.LCfg.mcp now st
          (Launcher.specMcpUnwrap payload t) := by
  have hu := Launcher.unwrap_eq_spec hwt hp hpt
  exact ⟨hu, Launcher.handleCodexEvent_unwrap_step hwt rfl rfl (Or.inl rfl) hu⟩

/-- Witness for C3 (amended): a wrapped `codex/event/agent_message`
payload is normalized and re-dispatched. -/
theorem c3_event_msg_unwrap_redispatch_witness :
    Launcher.unwrapMcpWrapperEvent
        (Value.obj [("type", Value.str "event_msg"),
          ("payload", Value.obj [("type", Value.str "codex/event/agent_message"),
            ("message", Value.str "hi")])])
      = some (Launcher.specMcpUnwrap
          (Value.obj [("type", Value.str "codex/event/agent_message"),
            ("message", Value.str "hi")]) "codex/event/agent_message") :=
  (c3_event_msg_unwrap_redispatch 0 Launcher.LState.idle
    (Value.obj [("type", Value.str "event_msg"),
      ("payload", Value.obj [("type", Value.str "codex/event/agent_message"),
        ("message", Value.str "hi")])])
    (Value.obj [("type", Value.str "codex/event/agent_message"),
      ("message", Value.str "hi")])
    "codex/event/agent_message" rfl rfl rfl).1

/-- C3 counterexample: a `response_item` envelope is not unwrapped.  The
wrapped agent message produces no collaborator calls at all, while the
re-dispatch the claim demands (handling the stripped payload) would write
the message to the buffer and forward it to the hub. -/
theorem c3_counterexample :
    (Launcher.handleCodexEvent Launcher.LCfg.mcp 0 Launcher.LState.idle
        (Value.obj [("type", Value.str "response_item"),
          ("payload", Value.obj [("type", Value.str "agent_message"),
            ("message", Value.str "hi")])])).2 = []
    ∧ (Launcher.handleCodexEvent Launcher.LCfg.mcp 0 Launcher.LState.idle
        (Value.obj [("type", Value.str "agent_message"),
          ("message", Value.str "hi")])).2 ≠ [] := by
  have hstep1 : Launcher.handleCodexEvent Launcher.LCfg.mcp 0 Launcher.LState.idle
      (Value.obj [("type", Value.str "response_item"),
        ("payload", Value.obj [("type", Value.str "agent_message"),
          ("message", Value.str "hi")])])
      = Launcher.handleCore Launcher.LCfg.mcp 0 Launcher.LState.idle
        (Value.obj [("type", Value.str "response_item"),
          ("payload", Value.obj [("type", Value.str "agent_message"),
            ("message", Value.str "hi")])]) "response_item" :=
    Launcher.handleCodexEvent_unwrap_none rfl (by decide)
  have hstep2 : Launcher.handleCodexEvent Launcher.LCfg.mcp 0 Launcher.LState.idle
      (Value.obj [("type", Value.str "agent_message"), ("message", Value.str "hi")])
      = Launcher.handleCore Launcher.LCfg.mcp 0 Launcher.LState.idle
        (Value.obj [("type", Value.str "agent_message"), ("message", Value.str "hi")])
        "agent_message" :=
    Launcher.handleCodexEvent_not_wrapper rfl (by decide)
  constructor
  · rw [hstep1]; decide
  · rw [hstep2]; decide

namespace Launcher

/-- Watchdog-relevant occurrences during one turn: a 5-second interval tick
firing at `now`, or a canonical event recording progress at `now`. -/
inductive WdEvent where
  | tick (now : Nat)
  | progress (now : Nat)
deriving Repr, DecidableEq

/-- One watchdog-relevant occurrence. -/
def wdStep (cfg : LCfg) (shouldExit : Bool) (s : LState) : WdEvent → LState × List Action
  | .tick now => watchdogTick shouldExit now s
  | .progress now => (markTurnProgress cfg now s, [])

/-- A sequence of occurrences. -/
def wdRun (cfg : LCfg) (shouldExit : Bool) : LState → List WdEvent → LState × List Action
  | s, [] => (s, [])
  | s, e :: evs =>
      let (s1, a1) := wdStep cfg shouldExit s e
      let (s2, a2) := wdRun cfg shouldExit s1 evs
      (s2, a1 ++ a2)

/-- Number of "might be stuck" warnings in an action trace. -/
def countWarnings (acts : List Action) : Nat :=
  (acts.filter (fun a => decide (a = Action.bufferAdd stuckWarning "status"))).length

theorem countWarnings_append (a b : List Action) :
    countWarnings (a ++ b) = countWarnings a + countWarnings b := by
  simp [countWarnings, List.filter_append]

theorem watchdogTick_cases (ex : Bool) (now : Nat) (s : LState) :
    watchdogTick ex now s = (s, [])
    ∨ (s.turnWatchdogNotified = false
        ∧ watchdogTick ex now s = ({ s with turnWatchdogNotified := true },
            [Action.bufferAdd stuckWarning "status",
             Action.sendSessionEvent (Value.obj [("type", Value.str "message"),
               ("message", Value.str stuckWarning)])])) := by
  simp only [watchdogTick]
  split
  · left; rfl
  · split
    · left; rfl
    · next h2 =>
        right
        simp only [not_or, Bool.not_eq_true, not_lt] at h2
        exact ⟨h2.1, rfl⟩

theorem watchdogTick_silent (ex : Bool) (now : Nat) (s : LState)
    (h : (watchdogTick ex now s).2 ≠ []) :
    s.turnInFlight = true ∧ s.turnWatchdogNotified = false
    ∧ 90000 ≤ now - s.lastTurnProgressAt ∧ ex = false := by
  simp only [watchdogTick] at h
  split at h
  · exact absurd rfl h
  · next h1 =>
    split at h
    · exact absurd rfl h
    · next h2 =>
        simp only [not_or, Bool.not_eq_true, Bool.not_eq_false, not_lt] at h1 h2
        exact ⟨h1.2, h2.1, h2.2, h1.1⟩

theorem markTurnProgress_notified (cfg : LCfg) (now : Nat) (s : LState) :
    (markTurnProgress cfg now s).turnWatchdogNotified = s.turnWatchdogNotified := by
  simp only [markTurnProgress]
  split <;> rfl

/-- No tick emits more than one warning over a whole trace: once notified,
nothing further is emitted for the remainder of the turn. -/
theorem wdRun_warnings_le (cfg : LCfg) (ex : Bool) :
    ∀ (evs : List WdEvent) (s : LState),
      countWarnings (wdRun cfg ex s evs).2
        ≤ (if s.turnWatchdogNotified then 0 else 1) := by
  intro evs
  induction evs with
  | nil => intro s; simp [wdRun, countWarnings]
  | cons e evs ih =>
      intro s
      cases e with
      | tick now =>
          rcases watchdogTick_cases ex now s with heq | ⟨hold, heq⟩
          · simp only [wdRun, wdStep, heq]
            simpa [countWarnings_append, countWarnings] using ih s
          · simp only [wdRun, wdStep, heq]
            have hih := ih ({ s with turnWatchdogNotified := true })
            rw [if_pos rfl] at hih
            rw [countWarnings_append, hold]
            have hcw : countWarnings [Action.bufferAdd stuckWarning "status",
                Action.sendSessionEvent (Value.obj [("type", Value.str "message"),
                  ("message", Value.str stuckWarning)])] = 1 := by
              simp [countWarnings]
            rw [hcw]
            simp only [Bool.false_eq_true, if_false]
            omega
      | progress now =>
          simp only [wdRun, wdStep]
          rw [countWarnings_append]
          have hih := ih (markTurnProgress cfg now s)
          rw [markTurnProgress_notified] at hih
          have hz : countWarnings [] = 0 := by simp [countWarnings]
          omega

end Launcher

namespace Launcher

theorem startTurnTracking_notified (cfg : LCfg) (now : Nat) (s0 : LState)
    (h : cfg.useAsyncTurnClient = true) :
    (startTurnTracking cfg now s0).1.turnWatchdogNotified = false := by
  simp only [startTurnTracking]
  rw [if_neg (by simp [h])]
  split
  · split <;> rfl
  · split <;> rfl

end Launcher

/-- C8 (amended).  The progress watchdog warns at most once per turn, and a
tick warns only when a turn is in flight, no progress has been recorded for
at least 90 seconds, and it has not already notified in this turn.  A
progress event does not cancel the warning for the remainder of the turn
(see the counterexample); it resets the idle clock, so every tick within
the 90-second window that follows the progress event stays silent. -/
theorem c8_watchdog_once_per_turn :
    (∀ (cfg : Launcher.LCfg) (now : Nat) (s0 : Launcher.LState)
        (evs : List Launcher.WdEvent), cfg.useAsyncTurnClient = true →
      Launcher.countWarnings
        (Launcher.wdRun cfg false ((Launcher.startTurnTracking cfg now s0).1) evs).2 ≤ 1)
    ∧ (∀ (ex : Bool) (now : Nat) (s : Launcher.LState),
        (Launcher.watchdogTick ex now s).2 ≠ [] →
        s.turnInFlight = true ∧ s.turnWatchdogNotified = false
          ∧ 90000 ≤ now - s.lastTurnProgressAt)
    ∧ (∀ (cfg : Launcher.LCfg) (s : Launcher.LState) (nowP nowT : Nat),
        cfg.useAsyncTurnClient = true → s.turnInFlight = true →
        nowT < nowP + 90000 →
        (Launcher.watchdogTick false nowT (Launcher.markTurnProgress cfg nowP s)).2 = []) := by
  refine ⟨?_, ?_, ?_⟩
  · intro cfg now s0 evs hasync
    have h := Launcher.wdRun_warnings_le cfg false evs ((Launcher.startTurnTracking cfg now s0).1)
    rw [Launcher.startTurnTracking_notified cfg now s0 hasync] at h
    simpa using h
  · intro ex now s h
    have := Launcher.watchdogTick_silent ex now s h
    exact ⟨this.1, this.2.1, this.2.2.1⟩
  · intro cfg s nowP nowT hasync hin hlt
    have hm : Launcher.markTurnProgress cfg nowP s = { s with lastTurnProgressAt := nowP } := by
      simp only [Launcher.markTurnProgress]
      rw [if_pos ⟨by simp [hasync], by simp [hin]⟩]
    rw [hm]
    simp only [Launcher.watchdogTick]
    split
    · rfl
    · rw [if_pos (Or.inr (show nowT - nowP < 90000 by omega))]

/-- Witness for C8 (amended): a concrete silent-then-warning schedule on
the app-server transport. -/
theorem c8_watchdog_once_per_turn_witness :
    Launcher.countWarnings
      (Launcher.wdRun ⟨true, false⟩ false
        ((Launcher.startTurnTracking ⟨true, false⟩ 0 Launcher.LState.idle).1)
        [Launcher.WdEvent.tick 95000, Launcher.WdEvent.tick 100000]).2 ≤ 1
    ∧ (Launcher.watchdogTick false 4000
        (Launcher.markTurnProgress ⟨true, false⟩ 3000
          ((Launcher.startTurnTracking ⟨true, false⟩ 0 Launcher.LState.idle).1))).2 = [] :=
  ⟨c8_watchdog_once_per_turn.1 ⟨true, false⟩ 0 Launcher.LState.idle
      [Launcher.WdEvent.tick 95000, Launcher.WdEvent.tick 100000] rfl,
   c8_watchdog_once_per_turn.2.2 ⟨true, false⟩
      ((Launcher.startTurnTracking ⟨true, false⟩ 0 Launcher.LState.idle).1) 3000 4000
      rfl (by decide) (by decide)⟩

/-- C8 counterexample: a progress event recorded inside the 90-second
window does not cancel the warning for the remainder of the turn.  Progress
at 5 s only defers the warning: with no further progress, the tick at 95 s
still fires exactly one warning. -/
theorem c8_counterexample :
    Launcher.countWarnings
      (Launcher.wdRun ⟨true, false⟩ false
        ((Launcher.startTurnTracking ⟨true, false⟩ 0 Launcher.LState.idle).1)
        [Launcher.WdEvent.progress 5000, Launcher.WdEvent.tick 95000]).2 = 1 := by
  decide

namespace Conv

open Value

theorem handleCodexWrapped_none (st : ConvState) (m : String) (p : Value)
    (h1 : ¬ m = "codex/event") (h2 : strStartsWith m "codex/event/" = false) :
    handleCodexWrapped st m p = none := by
  rw [handleCodexWrapped]
  rw [if_neg]
  rintro (h | h)
  · exact h1 h
  · rw [h2] at h; cases h

/-- The `turn/completed` mapping stated from the amended claim's words:
`interrupted`, `cancelled` and `canceled` (case-insensitively) abort the
turn; `failed` and `error` fail the task, carrying the error message when
present; every other status — `completed`, `complete`, `done`, `aborted`,
anything else, or no status at all — completes the task. -/
def specTurnCompleted (p : Value) : List Value :=
  let pr := (asRecord (some p)).getD (Value.obj [])
  let turn := (asRecord (getField pr "turn")).getD pr
  let status := (asString (jsOr (getField pr "status") (getField turn "status"))).map lowerStr
  let turnId := asString (jsOr (getField turn "turnId")
    (jsOr (getField turn "turn_id") (getField turn "id")))
  let errorMessage := asString (jsOr (getField pr "error")
    (jsOr (getField pr "message") (getField pr "reason")))
  if status = some "interrupted" ∨ status = some "cancelled" ∨ status = some "canceled" then
    [Value.obj (("type", Value.str "turn_aborted") :: optEntryS "turn_id" turnId)]
  else if status = some "failed" ∨ status = some "error" then
    [Value.obj (("type", Value.str "task_failed") :: optEntryS "turn_id" turnId
      ++ optEntryS "error" errorMessage)]
  else
    [Value.obj (("type", Value.str "task_complete") :: optEntryS "turn_id" turnId)]

end Conv

/-- C2 (amended).  `turn/completed` maps its status case-insensitively:
`interrupted`/`cancelled`/`canceled` yield `turn_aborted`; `failed`/`error`
yield `task_failed` carrying the error message when present; every other
status — `completed`, `complete`, `done`, and also `aborted` and any
unknown status — yields `task_complete`.  (`aborted` does NOT yield
`turn_aborted`, contrary to the claim; see the counterexample.)  The state
is untouched. -/
theorem c2_turn_completed_mapping (st : Conv.ConvState) (p : Value) :
    Conv.handleNotification st "turn/completed" p = (Conv.specTurnCompleted p, st) := by
  rw [Conv.handleNotification]
  rw [Conv.handleCodexWrapped_none st "turn/completed" _ (by decide) (by decide)]
  simp only [Conv.specTurnCompleted]
  simp only [String.reduceEq, or_self, or_false, false_or, if_false, if_true]
  split
  · rfl
  · split <;> rfl

/-- C2 counterexample: a `turn/completed` notification whose status is
`aborted` produces `task_complete`, not the `turn_aborted` the claim
requires. -/
theorem c2_counterexample :
    (Conv.handleNotification Conv.ConvState.init "turn/completed"
        (Value.obj [("status", Value.str "aborted")])).1
      = [Value.obj [("type", Value.str "task_complete")]]
    ∧ [Value.obj [("type", Value.str "task_complete")]]
      ≠ [Value.obj [("type", Value.str "turn_aborted")]] := by
  constructor
  · rw [c2_turn_completed_mapping]
    decide
  · decide

/-- C1.  A retryable upstream error is suppressed: when the params'
`will_retry` (or `willRetry`) field is the boolean `true`, the converter
returns no events (and leaves its state untouched) for `error` and
`stream_error` notifications, and `convertDirectEventRecord` returns no
events for direct-event records normalizing to those types. -/
theorem c1_retryable_error_suppressed (st : Conv.ConvState) (p : Value)
    (h : asBoolean (jsOr (Value.getField ((asRecord (some p)).getD (Value.obj [])) "will_retry")
      (Value.getField ((asRecord (some p)).getD (Value.obj [])) "willRetry")) = some true) :
    Conv.handleNotification st "error" p = ([], st)
    ∧ Conv.handleNotification st "stream_error" p = ([], st)
    ∧ ∀ (r : Value) (hint : Option String) (ty : String),
        Conv.normalizeDirectEventType
          ((asString (Value.getField r "type")).getD (hint.getD "")) = some ty →
        (ty = "error" ∨ ty = "stream_error") →
        asBoolean (jsOr (Value.getField r "will_retry") (Value.getField r "willRetry"))
          = some true →
        Conv.convertDirectEventRecord r hint = [] := by
  refine ⟨?_, ?_, ?_⟩
  · rw [Conv.handleNotification,
      Conv.handleCodexWrapped_none st "error" _ (by decide) (by decide)]
    simp only [String.reduceEq, or_self, or_false, false_or, if_false, if_true, h,
      Option.getD_some, if_pos]
  · rw [Conv.handleNotification,
      Conv.handleCodexWrapped_none st "stream_error" _ (by decide) (by decide)]
    simp only [String.reduceEq, or_self, or_false, false_or, if_false, if_true, h,
      Option.getD_some, if_pos]
  · intro r hint ty hn hty hr
    unfold Conv.convertDirectEventRecord
    simp only [hn, hr, Option.getD_some]
    rw [if_pos ⟨hty, trivial⟩]

/-- Witness for C1: a concrete retryable `stream_error` and a retryable
direct-event record both produce no events. -/
theorem c1_retryable_error_suppressed_witness :
    Conv.handleNotification Conv.ConvState.init "stream_error"
      (Value.obj [("message", Value.str "rate limited"), ("will_retry", Value.bool true)])
      = ([], Conv.ConvState.init)
    ∧ Conv.convertDirectEventRecord
        (Value.obj [("type", Value.str "error"), ("message", Value.str "transient"),
          ("willRetry", Value.bool true)]) none
      = [] :=
  ⟨(c1_retryable_error_suppressed Conv.ConvState.init
      (Value.obj [("message", Value.str "rate limited"), ("will_retry", Value.bool true)])
      (by decide)).2.1,
   (c1_retryable_error_suppressed Conv.ConvState.init
      (Value.obj [("message", Value.str "rate limited"), ("will_retry", Value.bool true)])
      (by decide)).2.2
      (Value.obj [("type", Value.str "error"), ("message", Value.str "transient"),
        ("willRetry", Value.bool true)]) none "error" (by decide) (Or.inl rfl) (by decide)⟩

/-- C4.  The repository's own test suite
(appServerEventConverter.test.ts, "unwraps codex/event/plan notifications
into todo_list") delivers exactly this notification and expects one
`todo_list` event with the entries mirrored into `items`; the converter has
no `plan` alias (neither `plan` nor `todo_list` appears in
`DIRECT_EVENT_TYPE_ALIASES` / `DIRECT_EVENT_TYPES`), so it emits nothing. -/
theorem c4_codex_event_plan_unhandled :
    Conv.handleNotification Conv.ConvState.init "codex/event/plan"
      (Value.obj [("msg", Value.obj [("entries",
        Value.arr [Value.obj [("content", Value.str "verify pipeline"),
          ("status", Value.str "pending")]])])])
      = ([], Conv.ConvState.init) := by
  simp [Conv.handleNotification, Conv.handleCodexWrapped, Conv.handleWrappedTail,
    asRecord, asString, jsOr, Value.getField, Value.lookupField, optGet, optEntryS,
    strStartsWith, strDrop, Conv.convertDirectEventRecord, Conv.normalizeDirectEventType,
    Conv.DIRECT_EVENT_TYPE_ALIASES, Conv.DIRECT_EVENT_TYPES, collapseRuns,
    collapseRunsAux, isWsDash, isJsWs, trimStr, lowerStr, asciiLowerChar,
    stripPrefixStr, Value.recFields, Value.setKey, asBoolean, strContainsSlash]

namespace Conv

open Value

theorem jsOr_assoc (a b c : Option Value) : jsOr (jsOr a b) c = jsOr a (jsOr b c) := by
  cases a with
  | none => rfl
  | some v => cases v <;> rfl

/-- The `patch_apply_end` success bit, stated from the amended claim's
words: the first of `item.success`, `item.ok`, `item.applied` that is
present and non-null decides the outcome when it is a boolean (any other
value means failure); when all three are absent or null, the outcome is
whether `item.status` is exactly `'completed'`. -/
def specPatchSuccess (item : Value) : Bool :=
  match jsOr (getField item "success") (jsOr (getField item "ok") (getField item "applied")) with
  | none => decide (getField item "status" = some (Value.str "completed"))
  | some .null => decide (getField item "status" = some (Value.str "completed"))
  | some (.bool b) => b
  | some _ => false

theorem specPatchSuccess_eq (item : Value) :
    (asBoolean (jsOr (getField item "success") (jsOr (getField item "ok")
      (jsOr (getField item "applied")
        (some (Value.bool (decide (getField item "status"
          = some (Value.str "completed"))))))))).getD false
    = specPatchSuccess item := by
  rw [← jsOr_assoc (getField item "ok") (getField item "applied"),
    ← jsOr_assoc (getField item "success")]
  unfold specPatchSuccess
  cases hc : jsOr (getField item "success")
      (jsOr (getField item "ok") (getField item "applied")) with
  | none => simp [jsOr, asBoolean]
  | some v => cases v <;> simp [jsOr, asBoolean]

end Conv

namespace Conv

open Value

/-- The meta remembered for a `fileChange` item at `item/started`: its
extracted `changes` and `auto_approved`. -/
def fileChangeMetaOf (item : Value) : List (String × Value) :=
  optEntryV "changes" (extractChanges (jsOr (getField item "changes")
    (jsOr (getField item "change") (getField item "diff"))))
  ++ optEntryB "auto_approved" (asBoolean (jsOr (getField item "autoApproved")
    (getField item "auto_approved")))

/-- The item-type key of a params record, as the converter computes it. -/
def itemTypeOf (pr : Value) : Option String :=
  normalizeItemType (jsOr (getField (extractItem pr) "type")
    (jsOr (getField (extractItem pr) "itemType") (getField (extractItem pr) "kind")))

end Conv

/-- C7 (amended).  For `item/completed` of a `fileChange` item the
converter emits one `patch_apply_end` event that merges the meta remembered
at `item/started` (the extracted `changes` and `auto_approved`), includes
`stdout` and `stderr` when present, and whose `success` field is: the first
present non-null value among `item.success`, `item.ok`, `item.applied` when
it is a boolean (any other such value gives `false`), and otherwise the
comparison `item.status == 'completed'`.  In particular `success` is NOT
`bool(item.success OR item.status == 'completed')`: an explicit
`success: false` wins over `status: 'completed'` (see the counterexample). -/
theorem c7_patch_apply_end_success
    (st : Conv.ConvState) (pStart pEnd : Value) (id : String) (meta : List (String × Value)) :
    (∀ pr item, pr = (asRecord (some pStart)).getD (Value.obj []) →
     item = Conv.extractItem pr →
     Conv.itemTypeOf pr = some "filechange" →
     Conv.extractItemId pr = some id →
     Conv.handleNotification st "item/started" pStart
        = ([Value.jsObj (("type", Value.str "patch_apply_begin") :: ("call_id", Value.str id)
              :: Conv.fileChangeMetaOf item)],
           { st with fileChangeMeta := mset st.fileChangeMeta id (Conv.fileChangeMetaOf item) }))
    ∧ (∀ pr item, pr = (asRecord (some pEnd)).getD (Value.obj []) →
       item = Conv.extractItem pr →
       Conv.itemTypeOf pr = some "filechange" →
       Conv.extractItemId pr = some id →
       mget st.fileChangeMeta id = some meta →
       Conv.handleNotification st "item/completed" pEnd
        = ([Value.jsObj (("type", Value.str "patch_apply_end") :: ("call_id", Value.str id)
              :: meta
              ++ optEntryS "stdout" (asString (jsOr (Value.getField item "stdout")
                  (Value.getField item "output")))
              ++ optEntryS "stderr" (asString (Value.getField item "stderr"))
              ++ [("success", Value.bool (Conv.specPatchSuccess item))])],
           { st with fileChangeMeta := mdel st.fileChangeMeta id })) := by
  constructor
  · intro pr item hpr hitem hty hid
    subst hitem; subst hpr
    simp only [Conv.itemTypeOf] at hty
    rw [Conv.handleNotification,
      Conv.handleCodexWrapped_none st "item/started" _ (by decide) (by decide)]
    simp only [String.reduceEq, or_self, or_false, false_or, or_true, true_or,
      if_false, if_true, hty, hid, Conv.fileChangeMetaOf]
  · intro pr item hpr hitem hty hid hmeta
    subst hitem; subst hpr
    simp only [Conv.itemTypeOf] at hty
    rw [Conv.handleNotification,
      Conv.handleCodexWrapped_none st "item/completed" _ (by decide) (by decide)]
    simp only [String.reduceEq, or_self, or_false, false_or, or_true, true_or,
      if_false, if_true, hty, hid, hmeta, Option.getD_some]
    rw [Conv.specPatchSuccess_eq]

namespace Conv

open Value

/-- The `patch_apply_end` success bit as the ORIGINAL claim words it:
the boolean-ization of `item.success OR item.status == 'completed'`. -/
def claimPatchSuccess (item : Value) : Bool :=
  Launcher.jsTruthy (getField item "success")
  || decide (getField item "status" = some (Value.str "completed"))

end Conv

/-- C7 counterexample: an `item/completed` fileChange item carrying
`success: false` together with `status: 'completed'`.  The claim's formula
`bool(item.success OR item.status == 'completed')` yields `true`, but the
converter emits `success: false`: the explicit boolean wins and `status` is
never consulted. -/
theorem c7_counterexample :
    (Conv.handleNotification
        { Conv.ConvState.init with fileChangeMeta :=
            [("patch-1", [("changes", Value.obj [("a.txt", Value.obj [("kind", Value.str "edit")])])])] }
        "item/completed"
        (Value.obj [("item", Value.obj [("id", Value.str "patch-1"),
          ("type", Value.str "fileChange"), ("success", Value.bool false),
          ("status", Value.str "completed")])])).1
      = [Value.jsObj [("type", Value.str "patch_apply_end"),
          ("call_id", Value.str "patch-1"),
          ("changes", Value.obj [("a.txt", Value.obj [("kind", Value.str "edit")])]),
          ("success", Value.bool false)]]
    ∧ Conv.claimPatchSuccess (Value.obj [("id", Value.str "patch-1"),
        ("type", Value.str "fileChange"), ("success", Value.bool false),
        ("status", Value.str "completed")]) = true := by
  constructor
  · simp [Conv.handleNotification, Conv.handleCodexWrapped, Conv.handleWrappedTail,
      asRecord, asString, jsOr, Value.getField, Value.lookupField, optGet, optEntryS,
      Conv.optEntryB, optEntryV, strStartsWith, Conv.extractItemId, Conv.extractItem,
      Conv.normalizeItemType, Conv.stripSepLower, lowerStr, asciiLowerChar, isJsWs,
      mget, mset, mdel, strTruthy, Conv.extractChanges, asBoolean]
    all_goals decide
  · decide

/-- Witness for C7 (amended): on the counterexample's `item/completed`
notification the instantiated theorem evaluates to the single
`patch_apply_end` event with `success: false` and the remembered meta
deleted. -/
theorem c7_patch_apply_end_success_witness :
    (Conv.handleNotification
        { Conv.ConvState.init with fileChangeMeta :=
            [("patch-1", [("changes", Value.obj [("a.txt", Value.obj [("kind", Value.str "edit")])])])] }
        "item/completed"
        (Value.obj [("item", Value.obj [("id", Value.str "patch-1"),
          ("type", Value.str "fileChange"), ("success", Value.bool false),
          ("status", Value.str "completed")])])).2.fileChangeMeta = [] := by
  have h := (c7_patch_apply_end_success
      { Conv.ConvState.init with fileChangeMeta :=
          [("patch-1", [("changes", Value.obj [("a.txt", Value.obj [("kind", Value.str "edit")])])])] }
      (Value.obj [])
      (Value.obj [("item", Value.obj [("id", Value.str "patch-1"),
        ("type", Value.str "fileChange"), ("success", Value.bool false),
        ("status", Value.str "completed")])])
      "patch-1"
      [("changes", Value.obj [("a.txt", Value.obj [("kind", Value.str "edit")])])]).2
      _ _ rfl rfl (by decide) (by decide) (by decide)
  rw [h]
  decide

/-! ## Reasoning-delta bookkeeping (C5) -/

/-- Concatenation of a list of strings, in order. -/
def strConcat : List String → String
  | [] => ""
  | s :: rest => s ++ strConcat rest

theorem mget_mset_self {α : Type} (m : List (String × α)) (k : String) (v : α) :
    mget (mset m k v) k = some v := by
  induction m with
  | nil => simp [mget, mset, List.find?]
  | cons kv m ih =>
      obtain ⟨l, w⟩ := kv
      by_cases h : l = k
      · simp [mset, h, mget, List.find?]
      · simpa [mset, h, mget, List.find?] using ih

namespace Conv

open Value

/-- Feed a list of notifications through the converter in order,
concatenating the emitted events. -/
def runNotifs : ConvState → List (String × Value) → List Value × ConvState
  | st, [] => ([], st)
  | st, (m, p) :: rest =>
      let r := handleNotification st m p
      let r2 := runNotifs r.2 rest
      (r.1 ++ r2.1, r2.2)

theorem runNotifs_append (l1 l2 : List (String × Value)) : ∀ st : ConvState,
    runNotifs st (l1 ++ l2)
      = ((runNotifs st l1).1 ++ (runNotifs (runNotifs st l1).2 l2).1,
         (runNotifs (runNotifs st l1).2 l2).2) := by
  induction l1 with
  | nil => intro st; simp [runNotifs]
  | cons mp rest ih =>
      intro st
      obtain ⟨m, p⟩ := mp
      simp only [List.cons_append, runNotifs, List.append_eq, ih, List.append_assoc]

/-- `item/reasoning/textDelta` with a non-empty delta appends the delta to
the id's reasoning buffer and emits exactly one `agent_reasoning_delta`. -/
theorem textDelta_step (st : ConvState) (id d : String)
    (hid : 0 < id.length) (hd : 0 < d.length) :
    handleNotification st "item/reasoning/textDelta"
      (Value.obj [("id", Value.str id), ("delta", Value.str d)])
    = ([Value.obj [("type", Value.str "agent_reasoning_delta"), ("delta", Value.str d)]],
       { st with reasoningBuffers := mset st.reasoningBuffers id ((mget st.reasoningBuffers id).getD "" ++ d) }) := by
  rw [handleNotification, handleCodexWrapped_none st "item/reasoning/textDelta" _
    (by decide) (by decide)]
  simp only [String.reduceEq, or_self, or_false, false_or, or_true, true_or,
    if_false, if_true]
  simp [extractItemId, asRecord, jsOr, Value.getField, Value.lookupField, asString,
    String.reduceEq, hid, hd]

end Conv

namespace Conv

open Value

/-- Folding a train of non-empty `item/reasoning/textDelta` notifications
for one id emits one `agent_reasoning_delta` per delta (in order) and
leaves the id's buffer holding the previous buffer followed by the
concatenation of the deltas. -/
theorem runNotifs_textDeltas (id : String) (hid : 0 < id.length) :
    ∀ (ds : List String) (st : ConvState), (∀ d ∈ ds, 0 < d.length) →
    (runNotifs st (ds.map (fun d => ("item/reasoning/textDelta",
        Value.obj [("id", Value.str id), ("delta", Value.str d)])))).1
      = ds.map (fun d => Value.obj [("type", Value.str "agent_reasoning_delta"),
          ("delta", Value.str d)])
    ∧ (ds ≠ [] → mget (runNotifs st (ds.map (fun d => ("item/reasoning/textDelta",
        Value.obj [("id", Value.str id), ("delta", Value.str d)])))).2.reasoningBuffers id
        = some ((mget st.reasoningBuffers id).getD "" ++ strConcat ds)) := by
  intro ds
  induction ds with
  | nil =>
      intro st _
      exact ⟨rfl, fun h => absurd rfl h⟩
  | cons d rest ih =>
      intro st h
      have hd : 0 < d.length := h d (by simp)
      have hrest : ∀ x ∈ rest, 0 < x.length := fun x hx => h x (by simp [hx])
      simp only [List.map_cons, runNotifs]
      rw [textDelta_step st id d hid hd]
      obtain ⟨ih1, ih2⟩ := ih
        { st with reasoningBuffers := mset st.reasoningBuffers id ((mget st.reasoningBuffers id).getD "" ++ d) }
        hrest
      constructor
      · simp only [ih1, List.singleton_append]
      · intro _
        by_cases hne : rest = []
        · subst hne
          simp only [List.map_nil, runNotifs, strConcat, String.append_empty]
          exact mget_mset_self st.reasoningBuffers id _
        · have h2 := ih2 hne
          rw [h2]
          simp only [mget_mset_self, Option.getD_some, strConcat, String.append_assoc]

end Conv

namespace Conv

open Value

/-- `item/completed` for a reasoning item with no explicit text flushes the
id's buffer as the final `agent_reasoning.text` and drops the buffer. -/
theorem reasoningCompleted_buffered (st : ConvState) (id t : String)
    (hid : 0 < id.length) (hbuf : mget st.reasoningBuffers id = some t)
    (ht : 0 < t.length) :
    handleNotification st "item/completed"
      (Value.obj [("item", Value.obj [("id", Value.str id), ("type", Value.str "reasoning")])])
    = ([Value.obj [("type", Value.str "agent_reasoning"), ("text", Value.str t)]],
       { st with reasoningBuffers := mdel st.reasoningBuffers id }) := by
  have hty : normalizeItemType (some (Value.str "reasoning")) = some "reasoning" := by
    decide
  rw [handleNotification, handleCodexWrapped_none st "item/completed" _
    (by decide) (by decide)]
  simp only [String.reduceEq, or_self, or_false, false_or, or_true, true_or,
    if_false, if_true]
  simp [extractItemId, extractItem, asRecord, jsOr, Value.getField,
    Value.lookupField, asString, String.reduceEq, hty, hid, hbuf, strTruthy, ht]

/-- `item/completed` for a reasoning item carrying an explicit non-empty
`text` emits that text, regardless of the id's buffered deltas. -/
theorem reasoningCompleted_explicit (st : ConvState) (id t : String)
    (hid : 0 < id.length) (ht : 0 < t.length) :
    handleNotification st "item/completed"
      (Value.obj [("item", Value.obj [("id", Value.str id), ("type", Value.str "reasoning"),
        ("text", Value.str t)])])
    = ([Value.obj [("type", Value.str "agent_reasoning"), ("text", Value.str t)]],
       { st with reasoningBuffers := mdel st.reasoningBuffers id }) := by
  have hty : normalizeItemType (some (Value.str "reasoning")) = some "reasoning" := by
    decide
  rw [handleNotification, handleCodexWrapped_none st "item/completed" _
    (by decide) (by decide)]
  simp only [String.reduceEq, or_self, or_false, false_or, or_true, true_or,
    if_false, if_true]
  simp [extractItemId, extractItem, asRecord, jsOr, Value.getField,
    Value.lookupField, asString, String.reduceEq, hty, hid, strTruthy, ht]

end Conv

namespace Sdk

open Value

theorem strStartsWith_append (p d : String) : strStartsWith (p ++ d) p = true := by
  rw [strStartsWith, String.data_append, List.isPrefixOf_iff_prefix]
  exact List.prefix_append p.data d.data

theorem strDrop_append (p d : String) : strDrop (p ++ d) p.length = d := by
  rw [strDrop, String.data_append]
  show String.mk (List.drop p.data.length (p.data ++ d.data)) = d
  rw [List.drop_left]

end Sdk

/-! ## Section-break bookkeeping in the SDK mapper (C6) -/

namespace Sdk

open Value

/-- A reasoning item event of the SDK stream: `(eventType, text)` for a
given item id. -/
def mkReason (x : String) (p : String × String) : Value :=
  Value.obj [("type", Value.str p.1),
    ("item", Value.obj [("id", Value.str x), ("type", Value.str "reasoning"),
      ("text", Value.str p.2)])]

/-- Number of `agent_reasoning_section_break` events in an output list. -/
def countBreaks (l : List Value) : Nat :=
  (l.filter (fun e => Value.getField e "type"
    == some (Value.str "agent_reasoning_section_break"))).length

theorem countBreaks_append (x y : List Value) :
    countBreaks (x ++ y) = countBreaks x + countBreaks y := by
  simp [countBreaks, List.filter_append]

theorem sAdd_of_mem (l : List String) (x : String) (h : sHas l x = true) :
    sAdd l x = l := by
  simp [sHas] at h
  simp [sAdd, h]

theorem sHas_sAdd_self (l : List String) (x : String) : sHas (sAdd l x) x = true := by
  by_cases h : sHas l x = true
  · rw [sAdd_of_mem l x h]; exact h
  · simp [sHas] at h ⊢
    simp [sAdd, sHas, h]

/-- `turn.started` clears the seen-reasoning-id set and announces the
task. -/
theorem turnStarted_step (turnId : String) (st : SdkState) :
    sdkStep turnId st (Value.obj [("type", Value.str "turn.started")])
      = ({ st with reasoningItemIds := [] },
         [Value.obj [("type", Value.str "task_started"), ("turn_id", Value.str turnId)]]) := by
  have hev : 0 < "turn.started".length := by decide
  simp [sdkStep, asRecord, asString, jsOr, Value.getField, Value.lookupField,
    String.reduceEq, hev]

/-- The first reasoning item started in a turn emits no section break. -/
theorem reasoningStarted_first (turnId : String) (st : SdkState) (x : String)
    (hx : 0 < x.length) (hempty : st.reasoningItemIds = []) :
    sdkStep turnId st (mkReason x ("item.started", ""))
      = ({ st with reasoningItemIds := [x] }, []) := by
  have hty : normalizeItemType (some (Value.str "reasoning")) = some "reasoning" := by
    decide
  have hev : 0 < "item.started".length := by decide
  simp [mkReason, sdkStep, asRecord, asString, jsOr, Value.getField, Value.lookupField,
    String.reduceEq, hty, hev, hx, hempty, sHas, sAdd, extractTextFromContent, optGet]

/-- A reasoning item started while a different id is already seen emits
exactly one section break. -/
theorem reasoningStarted_second (turnId : String) (st : SdkState) (a b : String)
    (hb : 0 < b.length) (hab : a ≠ b) (hseen : st.reasoningItemIds = [a]) :
    sdkStep turnId st (mkReason b ("item.started", ""))
      = ({ st with reasoningItemIds := [a, b] },
         [Value.obj [("type", Value.str "agent_reasoning_section_break")]]) := by
  have hty : normalizeItemType (some (Value.str "reasoning")) = some "reasoning" := by
    decide
  have hev : 0 < "item.started".length := by decide
  have hmem : sHas [a] b = false := by
    simp [sHas, List.contains]
    exact fun h => hab h.symm
  have hba : b ≠ a := fun h => hab h.symm
  simp [mkReason, sdkStep, asRecord, asString, jsOr, Value.getField, Value.lookupField,
    String.reduceEq, hty, hev, hb, hseen, hmem, sAdd, sHas, hba, extractTextFromContent,
    optGet]

end Sdk

namespace Sdk

open Value

/-- Any reasoning event for an id already seen this turn emits no section
break and leaves the seen-id set unchanged. -/
theorem reasoning_seen_step (turnId : String) (st : SdkState) (x ty t : String)
    (hx : 0 < x.length)
    (hty : ty = "item.started" ∨ ty = "item.updated" ∨ ty = "item.completed")
    (hseen : sHas st.reasoningItemIds x = true) :
    (sdkStep turnId st (mkReason x (ty, t))).1.reasoningItemIds = st.reasoningItemIds
    ∧ countBreaks (sdkStep turnId st (mkReason x (ty, t))).2 = 0 := by
  have htyR : normalizeItemType (some (Value.str "reasoning")) = some "reasoning" := by
    decide
  rcases hty with h | h | h <;> subst h
  · have hev : 0 < "item.started".length := by decide
    refine ⟨?_, ?_⟩ <;>
      simp [mkReason, sdkStep, asRecord, asString, jsOr, Value.getField,
        Value.lookupField, String.reduceEq, htyR, hev, hx, hseen,
        sAdd_of_mem _ _ hseen, countBreaks, extractTextFromContent, optGet]
  · have hev : 0 < "item.updated".length := by decide
    constructor
    · simp [mkReason, sdkStep, asRecord, asString, jsOr, Value.getField,
        Value.lookupField, String.reduceEq, htyR, hev, hx, hseen,
        extractTextFromContent, optGet]
    · simp [mkReason, sdkStep, asRecord, asString, jsOr, Value.getField,
        Value.lookupField, String.reduceEq, htyR, hev, hx, hseen, countBreaks,
        extractTextFromContent, optGet]
      all_goals ((repeat' split) <;> intros <;> simp_all [Value.lookupField])
  · have hev : 0 < "item.completed".length := by decide
    constructor
    · simp [mkReason, sdkStep, asRecord, asString, jsOr, Value.getField,
        Value.lookupField, String.reduceEq, htyR, hev, hx, hseen,
        extractTextFromContent, optGet, strTruthy]
    · simp [mkReason, sdkStep, asRecord, asString, jsOr, Value.getField,
        Value.lookupField, String.reduceEq, htyR, hev, hx, hseen, countBreaks,
        extractTextFromContent, optGet, strTruthy]
      all_goals ((repeat' split) <;> intros <;> simp_all [Value.lookupField])

/-- A whole train of reasoning events for one already-seen id emits no
section break and leaves the seen-id set unchanged. -/
theorem run_reason_seen (turnId : String) (x : String) (hx : 0 < x.length) :
    ∀ (specs : List (String × String)) (st : SdkState),
    (∀ p ∈ specs, p.1 = "item.started" ∨ p.1 = "item.updated" ∨ p.1 = "item.completed") →
    sHas st.reasoningItemIds x = true →
    (sdkRun turnId st (specs.map (mkReason x))).1.reasoningItemIds = st.reasoningItemIds
    ∧ countBreaks (sdkRun turnId st (specs.map (mkReason x))).2 = 0 := by
  intro specs
  induction specs with
  | nil => intro st _ _; exact ⟨rfl, rfl⟩
  | cons p rest ih =>
      intro st hsp hseen
      obtain ⟨pt, ptext⟩ := p
      have hp := hsp (pt, ptext) (by simp)
      obtain ⟨h1, h2⟩ := reasoning_seen_step turnId st x pt ptext hx hp hseen
      cases hstep : sdkStep turnId st (mkReason x (pt, ptext)) with
      | mk s1 o1 =>
          rw [hstep] at h1 h2
          simp only at h1 h2
          have hseen1 : sHas s1.reasoningItemIds x = true := by rw [h1]; exact hseen
          obtain ⟨ih1, ih2⟩ := ih s1 (fun q hq => hsp q (by simp [hq])) hseen1
          simp only [List.map_cons, sdkRun, hstep]
          constructor
          · rw [ih1, h1]
          · rw [countBreaks_append, h2, ih2]

end Sdk

/-- C6.  In the SDK mapper, within one turn (the seen-reasoning-id set is
cleared by `turn.started`): a first reasoning item and any train of further
events for it emit no `agent_reasoning_section_break`; starting a second,
distinct reasoning id then emits exactly one section break (and nothing
else), before any event of the second item is processed; and the second
item's own subsequent events emit no further break. -/
theorem c6_second_reasoning_section_break
    (turnId a b : String) (st0 : Sdk.SdkState)
    (ha : 0 < a.length) (hb : 0 < b.length) (hab : a ≠ b)
    (aSpecs bSpecs : List (String × String))
    (hasp : ∀ p ∈ aSpecs, p.1 = "item.started" ∨ p.1 = "item.updated" ∨ p.1 = "item.completed")
    (hbsp : ∀ p ∈ bSpecs, p.1 = "item.started" ∨ p.1 = "item.updated" ∨ p.1 = "item.completed") :
    ∀ stA outA, Sdk.sdkRun turnId st0 (Value.obj [("type", Value.str "turn.started")]
        :: Sdk.mkReason a ("item.started", "") :: aSpecs.map (Sdk.mkReason a)) = (stA, outA) →
    Sdk.countBreaks outA = 0
    ∧ Sdk.sdkStep turnId stA (Sdk.mkReason b ("item.started", ""))
        = ({ stA with reasoningItemIds := [a, b] },
           [Value.obj [("type", Value.str "agent_reasoning_section_break")]])
    ∧ Sdk.countBreaks (Sdk.sdkRun turnId { stA with reasoningItemIds := [a, b] }
        (bSpecs.map (Sdk.mkReason b))).2 = 0 := by
  intro stA outA hrun
  have h0 := Sdk.turnStarted_step turnId st0
  have h1 := Sdk.reasoningStarted_first turnId { st0 with reasoningItemIds := [] } a ha rfl
  have hfold := Sdk.run_reason_seen turnId a ha aSpecs
    { st0 with reasoningItemIds := [a] } hasp (by simp [Sdk.sHas])
  simp only [Sdk.sdkRun, h0, h1] at hrun
  obtain ⟨hstA, houtA⟩ := Prod.mk.injEq .. ▸ hrun
  subst hstA
  subst houtA
  have hstAids := hfold.1
  simp only at hstAids
  refine ⟨?_, ?_, ?_⟩
  · rw [List.nil_append, Sdk.countBreaks_append, hfold.2]
    simp [Sdk.countBreaks, Value.getField, Value.lookupField]
  · exact Sdk.reasoningStarted_second turnId _ a b hb hab hstAids
  · have hrunB := Sdk.run_reason_seen turnId b hb bSpecs
      { (Sdk.sdkRun turnId { st0 with reasoningItemIds := [a] } (List.map (Sdk.mkReason a) aSpecs)).1 with reasoningItemIds := [a, b] }
      hbsp (by simp [Sdk.sHas])
    exact hrunB.2


/-- Witness for C6: a concrete turn with reasoning items `r1` then `r2` —
no section break is emitted for `r1` and its update, and starting `r2`
emits exactly the single section break. -/
theorem c6_second_reasoning_section_break_witness :
    Sdk.countBreaks (Sdk.sdkRun "t1" Sdk.SdkState.init
      (Value.obj [("type", Value.str "turn.started")]
        :: Sdk.mkReason "r1" ("item.started", "")
        :: [("item.updated", "hello")].map (Sdk.mkReason "r1"))).2 = 0
    ∧ (Sdk.sdkStep "t1" (Sdk.sdkRun "t1" Sdk.SdkState.init
        (Value.obj [("type", Value.str "turn.started")]
          :: Sdk.mkReason "r1" ("item.started", "")
          :: [("item.updated", "hello")].map (Sdk.mkReason "r1"))).1
        (Sdk.mkReason "r2" ("item.started", ""))).2
      = [Value.obj [("type", Value.str "agent_reasoning_section_break")]] := by
  have h := c6_second_reasoning_section_break "t1" "r1" "r2" Sdk.SdkState.init
    (by decide) (by decide) (by decide)
    [("item.updated", "hello")] [("item.updated", "world")]
    (by decide) (by decide)
    (Sdk.sdkRun "t1" Sdk.SdkState.init
      (Value.obj [("type", Value.str "turn.started")]
        :: Sdk.mkReason "r1" ("item.started", "")
        :: [("item.updated", "hello")].map (Sdk.mkReason "r1"))).1
    (Sdk.sdkRun "t1" Sdk.SdkState.init
      (Value.obj [("type", Value.str "turn.started")]
        :: Sdk.mkReason "r1" ("item.started", "")
        :: [("item.updated", "hello")].map (Sdk.mkReason "r1"))).2
    rfl
  refine ⟨h.1, ?_⟩
  rw [h.2.1]

/-! ## Canonical event types and converter safety (C10) -/

namespace Conv

open Value

/-- The canonical event set of the bridge (spec §4.1). -/
def canonicalTypes : List String := [
  "thread_started", "task_started", "task_complete", "task_failed",
  "turn_aborted", "stream_error", "error", "agent_message", "agent_reasoning",
  "agent_reasoning_delta", "agent_reasoning_section_break",
  "exec_command_begin", "exec_command_end", "exec_approval_request",
  "patch_apply_begin", "patch_apply_end", "todo_list", "turn_diff",
  "token_count"]

/-- An event carries a string `type` drawn from the canonical set. -/
def eventTypeCanonical (e : Value) : Bool :=
  match Value.getField e "type" with
  | some (.str t) => canonicalTypes.contains t
  | _ => false

/-- Every event of the list is canonically typed. -/
def eventsCanonical (l : List Value) : Bool := l.all eventTypeCanonical

theorem eventsCanonical_append (x y : List Value) :
    eventsCanonical (x ++ y) = (eventsCanonical x && eventsCanonical y) := by
  simp [eventsCanonical]

theorem eventsCanonical_obj_cons (c : String) (rest : List (String × Value))
    (h : canonicalTypes.contains c = true) :
    eventsCanonical [Value.obj (("type", Value.str c) :: rest)] = true := by
  simp only [eventsCanonical, eventTypeCanonical, List.all_cons, List.all_nil,
    Bool.and_true, Value.getField, Value.lookupField]
  simp
  exact List.mem_of_elem_eq_true h

theorem eventsCanonical_jsObj (c : String) (rest : List (String × Value))
    (hc : canonicalTypes.contains c = true) (h : ∀ kv ∈ rest, kv.1 ≠ "type") :
    eventsCanonical [Value.jsObj (("type", Value.str c) :: rest)] = true := by
  simp only [eventsCanonical, eventTypeCanonical, List.all_cons, List.all_nil,
    Bool.and_true, getField_jsObj_type _ _ h]
  exact hc

theorem lookupField_setIfAbsent_ne (c : List (String × Value)) {k' k : String}
    (v : Option Value) (h : k' ≠ k) :
    Value.lookupField (setIfAbsent c k' v) k = Value.lookupField c k := by
  cases v with
  | none => rfl
  | some x =>
      simp only [setIfAbsent]
      split
      · exact Value.lookupField_setKey_ne c x h
      · rfl

theorem directTypes_canonical :
    ∀ x ∈ DIRECT_EVENT_TYPES, canonicalTypes.contains x = true := by
  decide

theorem aliasValues_canonical :
    ∀ kv ∈ DIRECT_EVENT_TYPE_ALIASES, canonicalTypes.contains kv.2 = true := by
  decide

theorem aliasTable_canonical (nrm ty : String)
    (h : (match DIRECT_EVENT_TYPE_ALIASES.find? (fun kv => kv.1 == nrm) with
      | some kv => some kv.2
      | none => if DIRECT_EVENT_TYPES.contains nrm then some nrm else none) = some ty) :
    canonicalTypes.contains ty = true := by
  rcases hf : DIRECT_EVENT_TYPE_ALIASES.find? (fun kv => kv.1 == nrm) with _ | kv <;>
    rw [hf] at h
  · simp only at h
    split at h
    · injection h with h
      subst h
      next hmem =>
        exact directTypes_canonical nrm (List.mem_of_elem_eq_true hmem)
    · exact absurd h (by simp)
  · simp only at h
    injection h with h
    subst h
    exact aliasValues_canonical kv (List.mem_of_find?_eq_some hf)

/-- Every type `normalizeDirectEventType` can produce is canonical. -/
theorem normalizeDirectEventType_canonical (v ty : String)
    (h : normalizeDirectEventType v = some ty) :
    canonicalTypes.contains ty = true := by
  unfold normalizeDirectEventType at h
  exact aliasTable_canonical _ _ h

end Conv

namespace Conv

open Value

/-- A conditional field assignment is an assignment of a conditional
value. -/
theorem setIfAbsent_if (b : Prop) [Decidable b] (c : List (String × Value))
    (k : String) (v : Option Value) :
    (if b then setIfAbsent c k v else c) = setIfAbsent c k (if b then v else none) := by
  split <;> simp [setIfAbsent]

theorem setIfAbsent_if2 (b : Prop) [Decidable b] (c : List (String × Value))
    (k1 k2 : String) (v1 v2 : Option Value) :
    (if b then setIfAbsent (setIfAbsent c k1 v1) k2 v2 else c)
      = setIfAbsent (setIfAbsent c k1 (if b then v1 else none)) k2
          (if b then v2 else none) := by
  split <;> simp [setIfAbsent]

/-- Every event `convertDirectEventRecord` emits is canonically typed: the
`type` field is pinned first and every later conditional assignment uses a
different key. -/
theorem convertDirectEventRecord_canonical (r : Value) (hint : Option String) :
    eventsCanonical (convertDirectEventRecord r hint) = true := by
  unfold convertDirectEventRecord
  cases hn : normalizeDirectEventType ((asString (getField r "type")).getD (hint.getD "")) with
  | none => simp only [hn]; rfl
  | some nt =>
      simp only [hn]
      split
      · rfl
      · simp only [eventsCanonical, eventTypeCanonical, List.all_cons, List.all_nil,
          Bool.and_true, Value.getField, setIfAbsent_if2, setIfAbsent_if]
        have hcanon := normalizeDirectEventType_canonical _ _ hn
        simp [lookupField_setIfAbsent_ne, Value.lookupField_setKey_self, hcanon,
          List.mem_of_elem_eq_true hcanon]

end Conv

namespace Conv

open Value

/-- Every event `handleThreadStatusChanged` emits is canonically typed. -/
theorem handleThreadStatusChanged_canonical (p : Value) :
    eventsCanonical (handleThreadStatusChanged p) = true := by
  unfold handleThreadStatusChanged
  dsimp only
  (repeat' split) <;>
    first
      | rfl
      | (apply eventsCanonical_obj_cons; decide)

/-- Keys of per-item meta entries stay inside an allowed set. -/
def metaKeysOK (allowed : List String) (m : List (String × List (String × Value))) : Prop :=
  ∀ kv ∈ m, ∀ e ∈ kv.2, e.1 ∈ allowed

/-- Converter-state well-formedness: remembered command and file-change
meta entries only hold the keys the converter itself writes. -/
def WF (st : ConvState) : Prop :=
  metaKeysOK ["command", "cwd", "auto_approved"] st.commandMeta
  ∧ metaKeysOK ["changes", "auto_approved"] st.fileChangeMeta

theorem metaKeysOK_mset {allowed : List String}
    {m : List (String × List (String × Value))} (h : metaKeysOK allowed m)
    (k : String) {v : List (String × Value)} (hv : ∀ e ∈ v, e.1 ∈ allowed) :
    metaKeysOK allowed (mset m k v) := by
  induction m with
  | nil =>
      intro kv hkv
      simp [mset] at hkv
      subst hkv
      exact hv
  | cons lw m ih =>
      obtain ⟨l, w⟩ := lw
      intro kv hkv
      simp only [mset] at hkv
      split at hkv
      · rcases List.mem_cons.mp hkv with h1 | h1
        · subst h1; exact hv
        · exact h kv (List.mem_cons_of_mem _ h1)
      · rcases List.mem_cons.mp hkv with h1 | h1
        · subst h1; exact h (l, w) (by simp)
        · exact ih (fun kv2 hkv2 => h kv2 (List.mem_cons_of_mem _ hkv2)) kv h1

theorem metaKeysOK_mdel {allowed : List String}
    {m : List (String × List (String × Value))} (h : metaKeysOK allowed m)
    (k : String) : metaKeysOK allowed (mdel m k) := by
  intro kv hkv
  exact h kv (List.mem_of_mem_filter hkv)

theorem optEntryS_keys (k : String) (v : Option String) :
    ∀ e ∈ optEntryS k v, e.1 = k := by
  cases v <;> simp [optEntryS]

theorem optEntryV_keys (k : String) (v : Option Value) :
    ∀ e ∈ optEntryV k v, e.1 = k := by
  cases v <;> simp [optEntryV]

theorem optEntryB_keys (k : String) (v : Option Bool) :
    ∀ e ∈ optEntryB k v, e.1 = k := by
  cases v <;> simp [optEntryB]

theorem optEntryI_keys (k : String) (v : Option Int) :
    ∀ e ∈ optEntryI k v, e.1 = k := by
  cases v <;> simp [optEntryI]

end Conv

namespace Conv

open Value

theorem metaKeysOK_mget {allowed : List String}
    {m : List (String × List (String × Value))} (h : metaKeysOK allowed m)
    (k : String) : ∀ e ∈ (mget m k).getD [], e.1 ∈ allowed := by
  unfold mget
  cases hf : m.find? (fun kv => kv.1 == k) with
  | none => intro e he; simp at he
  | some kv =>
      exact fun e he => h kv (List.mem_of_find?_eq_some hf) e he

theorem keys_cons {l : List (String × Value)} {A : List String} (k : String) (v : Value)
    (hk : k ∈ A) (h : ∀ e ∈ l, e.1 ∈ A) : ∀ e ∈ (k, v) :: l, e.1 ∈ A := by
  intro e he
  rcases List.mem_cons.mp he with he | he
  · subst he; exact hk
  · exact h e he

theorem keys_append {l1 l2 : List (String × Value)} {A : List String}
    (h1 : ∀ e ∈ l1, e.1 ∈ A) (h2 : ∀ e ∈ l2, e.1 ∈ A) :
    ∀ e ∈ l1 ++ l2, e.1 ∈ A := by
  intro e he
  rcases List.mem_append.mp he with he | he
  · exact h1 e he
  · exact h2 e he

theorem optEntryS_keys_in {A : List String} (k : String) (v : Option String)
    (hk : k ∈ A) : ∀ e ∈ optEntryS k v, e.1 ∈ A :=
  fun e he => (optEntryS_keys k v e he) ▸ hk

theorem optEntryV_keys_in {A : List String} (k : String) (v : Option Value)
    (hk : k ∈ A) : ∀ e ∈ optEntryV k v, e.1 ∈ A :=
  fun e he => (optEntryV_keys k v e he) ▸ hk

theorem optEntryB_keys_in {A : List String} (k : String) (v : Option Bool)
    (hk : k ∈ A) : ∀ e ∈ optEntryB k v, e.1 ∈ A :=
  fun e he => (optEntryB_keys k v e he) ▸ hk

theorem optEntryI_keys_in {A : List String} (k : String) (v : Option Int)
    (hk : k ∈ A) : ∀ e ∈ optEntryI k v, e.1 ∈ A :=
  fun e he => (optEntryI_keys k v e he) ▸ hk

theorem keys_weaken {l : List (String × Value)} {A B : List String}
    (hAB : ∀ x ∈ A, x ∈ B) (h : ∀ e ∈ l, e.1 ∈ A) : ∀ e ∈ l, e.1 ∈ B :=
  fun e he => hAB e.1 (h e he)

theorem keys_ne_type {l : List (String × Value)} {A : List String}
    (hA : "type" ∉ A) (h : ∀ e ∈ l, e.1 ∈ A) : ∀ kv ∈ l, kv.1 ≠ "type" :=
  fun kv hkv heq => hA (heq ▸ h kv hkv)

theorem meta3_keys (x y : Option String) (z : Option Bool) :
    ∀ e ∈ (optEntryS "command" x ++ optEntryS "cwd" y ++ optEntryB "auto_approved" z),
      e.1 ∈ ["command", "cwd", "auto_approved"] :=
  keys_append (keys_append (optEntryS_keys_in _ _ (by decide))
      (optEntryS_keys_in _ _ (by decide)))
    (optEntryB_keys_in _ _ (by decide))

theorem meta2_keys (x : Option Value) (z : Option Bool) :
    ∀ e ∈ (optEntryV "changes" x ++ optEntryB "auto_approved" z),
      e.1 ∈ ["changes", "auto_approved"] :=
  keys_append (optEntryV_keys_in _ _ (by decide)) (optEntryB_keys_in _ _ (by decide))

theorem execBegin_rest_keys (id : String) (x y : Option String) (z : Option Bool) :
    ∀ kv ∈ (("call_id", Value.str id)
        :: (optEntryS "command" x ++ optEntryS "cwd" y ++ optEntryB "auto_approved" z)),
      kv.1 ≠ "type" :=
  keys_ne_type (A := ["call_id", "command", "cwd", "auto_approved"]) (by decide)
    (keys_cons _ _ (by decide) (keys_weaken (by decide) (meta3_keys x y z)))

theorem execEnd_rest_keys (id : String) (meta : List (String × Value))
    (hmeta : ∀ e ∈ meta, e.1 ∈ ["command", "cwd", "auto_approved"])
    (o se er : Option String) (ec : Option Int) (stt : Option String) :
    ∀ kv ∈ (("call_id", Value.str id)
        :: (meta ++ optEntryS "output" o ++ optEntryS "stderr" se
            ++ optEntryS "error" er ++ optEntryI "exit_code" ec
            ++ optEntryS "status" stt)),
      kv.1 ≠ "type" := by
  have h5 : ∀ e ∈ (meta ++ optEntryS "output" o ++ optEntryS "stderr" se
      ++ optEntryS "error" er ++ optEntryI "exit_code" ec ++ optEntryS "status" stt),
      e.1 ∈ ["call_id", "command", "cwd", "auto_approved", "output", "stderr",
        "error", "exit_code", "status"] :=
    keys_append (keys_append (keys_append (keys_append (keys_append
        (keys_weaken (by decide) hmeta)
        (optEntryS_keys_in _ _ (by decide)))
        (optEntryS_keys_in _ _ (by decide)))
        (optEntryS_keys_in _ _ (by decide)))
        (optEntryI_keys_in _ _ (by decide)))
      (optEntryS_keys_in _ _ (by decide))
  exact keys_ne_type (by decide) (keys_cons _ _ (by decide) h5)

theorem patchBegin_rest_keys (id : String) (x : Option Value) (z : Option Bool) :
    ∀ kv ∈ (("call_id", Value.str id)
        :: (optEntryV "changes" x ++ optEntryB "auto_approved" z)),
      kv.1 ≠ "type" :=
  keys_ne_type (A := ["call_id", "changes", "auto_approved"]) (by decide)
    (keys_cons _ _ (by decide) (keys_weaken (by decide) (meta2_keys x z)))

theorem patchEnd_rest_keys (id : String) (meta : List (String × Value))
    (hmeta : ∀ e ∈ meta, e.1 ∈ ["changes", "auto_approved"])
    (so se : Option String) (b : Bool) :
    ∀ kv ∈ (("call_id", Value.str id)
        :: (meta ++ optEntryS "stdout" so ++ optEntryS "stderr" se
            ++ [("success", Value.bool b)])),
      kv.1 ≠ "type" := by
  have h3 : ∀ e ∈ (meta ++ optEntryS "stdout" so ++ optEntryS "stderr" se
      ++ [("success", Value.bool b)]),
      e.1 ∈ ["call_id", "changes", "auto_approved", "stdout", "stderr", "success"] :=
    keys_append (keys_append (keys_append
        (keys_weaken (by decide) hmeta)
        (optEntryS_keys_in _ _ (by decide)))
        (optEntryS_keys_in _ _ (by decide)))
      (by
        intro e he
        simp only [List.mem_singleton] at he
        subst he
        exact (by decide : ("success" : String) ∈ ["call_id", "changes", "auto_approved", "stdout", "stderr", "success"]))
  exact keys_ne_type (by decide) (keys_cons _ _ (by decide) h3)

theorem asRecord_jsOr3_getD_vsize_le (p : Value) (k1 k2 k3 : String) :
    Value.vsize ((asRecord (jsOr (Value.getField p k1) (jsOr (Value.getField p k2)
      (Value.getField p k3)))).getD p) ≤ Value.vsize p := by
  cases hx : asRecord (jsOr (Value.getField p k1) (jsOr (Value.getField p k2)
      (Value.getField p k3))) with
  | none => simp
  | some x =>
      have := asRecord_vsize (fun y hy => jsOr3_getField_vsize hy) hx
      simp only [Option.getD_some]
      omega

set_option maxHeartbeats 1600000 in
/-- Safety of the whole converter family, by strong induction on the
termination measure: from a well-formed state, `handleWrappedTail`,
`handleCodexWrapped` and `handleNotification` only emit canonically typed
events and preserve well-formedness. -/
theorem converter_safe : ∀ n m : Nat,
    (∀ (st : ConvState) (method : String) (p : Value), WF st →
      Value.vsize p = n → method.length = m →
      eventsCanonical (handleWrappedTail st method p).1 = true
      ∧ WF (handleWrappedTail st method p).2)
    ∧ (∀ (st : ConvState) (method : String) (p : Value), WF st →
      Value.vsize p = n → method.length = m →
      ∀ r, handleCodexWrapped st method p = some r →
      eventsCanonical r.1 = true ∧ WF r.2)
    ∧ (∀ (st : ConvState) (method : String) (params : Value), WF st →
      Value.vsize params = n → method.length = m →
      eventsCanonical (handleNotification st method params).1 = true
      ∧ WF (handleNotification st method params).2) := by
  intro n
  induction n using Nat.strong_induction_on with
  | _ n ihn =>
  intro m
  induction m using Nat.strong_induction_on with
  | _ m ihm =>
  have htail : ∀ (st : ConvState) (method : String) (p : Value), WF st →
      Value.vsize p = n → method.length = m →
      eventsCanonical (handleWrappedTail st method p).1 = true
      ∧ WF (handleWrappedTail st method p).2 := by
    intro st method p hWF hn hm
    rw [handleWrappedTail]
    split
    · next hpre =>
        have hrecN : ∀ st' : ConvState, WF st' →
            eventsCanonical (handleNotification st' (strDrop method 12)
              ((asRecord (jsOr (Value.getField p "params") (jsOr (Value.getField p "payload")
                (Value.getField p "data")))).getD p)).1 = true
            ∧ WF (handleNotification st' (strDrop method 12)
              ((asRecord (jsOr (Value.getField p "params") (jsOr (Value.getField p "payload")
                (Value.getField p "data")))).getD p)).2 := by
          intro st' hWF'
          have hle := asRecord_jsOr3_getD_vsize_le p "params" "payload" "data"
          rcases Nat.lt_or_ge (Value.vsize ((asRecord (jsOr (Value.getField p "params")
              (jsOr (Value.getField p "payload") (Value.getField p "data")))).getD p)) n
            with hlt | hge
          · exact (ihn _ hlt (strDrop method 12).length).2.2 st' (strDrop method 12) _
              hWF' rfl rfl
          · have hlen : (strDrop method 12).length < m := by
              have := strDrop12_length_lt hpre
              omega
            have heq : Value.vsize ((asRecord (jsOr (Value.getField p "params")
                (jsOr (Value.getField p "payload") (Value.getField p "data")))).getD p) = n := by
              omega
            exact (ihm _ hlen).2.2 st' (strDrop method 12) _ hWF' heq rfl
        dsimp only
        split
        · split
          · exact ⟨convertDirectEventRecord_canonical _ _, hWF⟩
          · split
            · exact hrecN st hWF
            · split
              · exact ⟨convertDirectEventRecord_canonical _ _, (hrecN st hWF).2⟩
              · exact ⟨rfl, (hrecN st hWF).2⟩
        · split
          · split
            · exact ⟨convertDirectEventRecord_canonical _ _, hWF⟩
            · exact ⟨rfl, hWF⟩
          · exact ⟨rfl, hWF⟩
    · exact ⟨rfl, hWF⟩
  have hwrapped : ∀ (st : ConvState) (method : String) (p : Value), WF st →
      Value.vsize p = n → method.length = m →
      ∀ r, handleCodexWrapped st method p = some r →
      eventsCanonical r.1 = true ∧ WF r.2 := by
    intro st method p hWF hn hm r hr
    rw [handleCodexWrapped] at hr
    cases hsfx : strStartsWith method "codex/event/" with
    | false =>
        simp only [hsfx, Bool.false_eq_true, if_false, eq_self_iff_true, if_true] at hr
        split at hr
        · split at hr
          · next w heqw =>
              have hnplt : Value.vsize ((asRecord (jsOr (Value.getField w "params")
                  (jsOr (Value.getField w "payload") (Value.getField w "data")))).getD w) < n := by
                have := nestedParams_vsize_lt (p := p) (wrapped_vsize_lt heqw)
                omega
              have hrecN : ∀ (st' : ConvState) (nm : String), WF st' →
                  eventsCanonical (handleNotification st' nm
                    ((asRecord (jsOr (Value.getField w "params")
                      (jsOr (Value.getField w "payload") (Value.getField w "data")))).getD w)).1 = true
                  ∧ WF (handleNotification st' nm
                    ((asRecord (jsOr (Value.getField w "params")
                      (jsOr (Value.getField w "payload") (Value.getField w "data")))).getD w)).2 :=
                fun st' nm h' => (ihn _ hnplt nm.length).2.2 st' nm _ h' rfl rfl
              have hnested1 : eventsCanonical (match asRecord (Value.getField w "msg") with
                  | some nw => convertDirectEventRecord nw none
                  | none => ([] : List Value)) = true := by
                cases asRecord (Value.getField w "msg")
                · rfl
                · exact convertDirectEventRecord_canonical _ _
              split at hr
              · injection hr with hr
                subst hr
                exact ⟨hnested1, hWF⟩
              · split at hr
                · injection hr with hr
                  subst hr
                  exact hrecN st _ hWF
                · split at hr
                  · injection hr with hr
                    subst hr
                    exact ⟨convertDirectEventRecord_canonical _ _, hWF⟩
                  · injection hr with hr
                    subst hr
                    exact htail st method p hWF hn hm
          · next heqw =>
              injection hr with hr
              subst hr
              exact htail st method p hWF hn hm
        · exact absurd hr (by simp)
    | true =>
        simp only [hsfx, Bool.false_eq_true, if_false, eq_self_iff_true, if_true] at hr
        split at hr
        · split at hr
          · next w heqw =>
              have hnplt : Value.vsize ((asRecord (jsOr (Value.getField w "params")
                  (jsOr (Value.getField w "payload") (Value.getField w "data")))).getD w) < n := by
                have := nestedParams_vsize_lt (p := p) (wrapped_vsize_lt heqw)
                omega
              have hrecN : ∀ (st' : ConvState) (nm : String), WF st' →
                  eventsCanonical (handleNotification st' nm
                    ((asRecord (jsOr (Value.getField w "params")
                      (jsOr (Value.getField w "payload") (Value.getField w "data")))).getD w)).1 = true
                  ∧ WF (handleNotification st' nm
                    ((asRecord (jsOr (Value.getField w "params")
                      (jsOr (Value.getField w "payload") (Value.getField w "data")))).getD w)).2 :=
                fun st' nm h' => (ihn _ hnplt nm.length).2.2 st' nm _ h' rfl rfl
              have hnested1 : eventsCanonical (match asRecord (Value.getField w "msg") with
                  | some nw => convertDirectEventRecord nw none
                  | none => ([] : List Value)) = true := by
                cases asRecord (Value.getField w "msg")
                · rfl
                · exact convertDirectEventRecord_canonical _ _
              split at hr
              · injection hr with hr
                subst hr
                exact ⟨hnested1, hWF⟩
              · split at hr
                · injection hr with hr
                  subst hr
                  exact hrecN st _ hWF
                · split at hr
                  · next ev st3 heq3 =>
                      injection hr with hr
                      subst hr
                      split at heq3
                      · split at heq3
                        · injection heq3 with ha hb
                          injection ha with ha
                          subst ha
                          subst hb
                          exact ⟨convertDirectEventRecord_canonical _ _, hWF⟩
                        · split at heq3
                          · injection heq3 with ha hb
                            injection ha with ha
                            subst ha
                            subst hb
                            exact ⟨(hrecN st _ hWF).1, (hrecN st _ hWF).2⟩
                          · injection heq3 with ha hb
                            exact absurd ha (by simp)
                      · injection heq3 with ha hb
                        exact absurd ha (by simp)
                  · next st3 heq3 =>
                      have hWF3 : WF st3 := by
                        split at heq3
                        · split at heq3
                          · injection heq3 with ha hb
                            exact absurd ha (by simp)
                          · split at heq3
                            · injection heq3 with ha hb
                              exact absurd ha (by simp)
                            · injection heq3 with ha hb
                              subst hb
                              exact (hrecN st _ hWF).2
                        · injection heq3 with ha hb
                          subst hb
                          exact hWF
                      split at hr
                      · injection hr with hr
                        subst hr
                        exact ⟨convertDirectEventRecord_canonical _ _, hWF3⟩
                      · injection hr with hr
                        subst hr
                        exact htail st3 method p hWF3 hn hm
          · next heqw =>
              injection hr with hr
              subst hr
              exact htail st method p hWF hn hm
        · exact absurd hr (by simp)
  have hnotif : ∀ (st : ConvState) (method : String) (params : Value), WF st →
      Value.vsize params = n → method.length = m →
      eventsCanonical (handleNotification st method params).1 = true
      ∧ WF (handleNotification st method params).2 := by
    intro st method params hWF hn hm
    rw [handleNotification]
    split
    · next r' heqr =>
        have hple := paramsRecord_vsize_le params
        rcases Nat.lt_or_ge (Value.vsize ((asRecord (some params)).getD (Value.obj []))) n
          with hlt | hge
        · exact (ihn _ hlt method.length).2.1 st method _ hWF rfl rfl r' heqr
        · have heqn : Value.vsize ((asRecord (some params)).getD (Value.obj [])) = n := by
            omega
          exact hwrapped st method _ hWF heqn hm r' heqr
    · by_cases h1 : method = "thread/started" ∨ method = "thread/resumed"
      · rw [if_pos h1]
        (try dsimp only)
        (repeat' split) <;> exact ⟨rfl, hWF⟩
      · rw [if_neg h1]
        by_cases h2 : method = "turn/started"
        · rw [if_pos h2]
          exact ⟨rfl, hWF⟩
        · rw [if_neg h2]
          by_cases h3 : method = "turn/completed"
          · rw [if_pos h3]
            (try dsimp only)
            (repeat' split) <;> exact ⟨rfl, hWF⟩
          · rw [if_neg h3]
            by_cases h4 : method = "thread/status/changed"
            · rw [if_pos h4]
              exact ⟨handleThreadStatusChanged_canonical _, hWF⟩
            · rw [if_neg h4]
              by_cases h5 : method = "turn/diff/updated"
              · rw [if_pos h5]
                (try dsimp only)
                (repeat' split) <;> exact ⟨rfl, hWF⟩
              · rw [if_neg h5]
                by_cases h6 : method = "thread/tokenUsage/updated"
                · rw [if_pos h6]
                  exact ⟨rfl, hWF⟩
                · rw [if_neg h6]
                  by_cases h7 : method = "error"
                  · rw [if_pos h7]
                    (try dsimp only)
                    (repeat' split) <;> exact ⟨rfl, hWF⟩
                  · rw [if_neg h7]
                    by_cases h8 : method = "stream_error"
                    · rw [if_pos h8]
                      (try dsimp only)
                      (repeat' split) <;> exact ⟨rfl, hWF⟩
                    · rw [if_neg h8]
                      by_cases h9 : method = "item/agentMessage/delta"
                      · rw [if_pos h9]
                        (try dsimp only)
                        (repeat' split) <;> exact ⟨rfl, hWF⟩
                      · rw [if_neg h9]
                        by_cases h10 : method = "item/reasoning/textDelta"
                        · rw [if_pos h10]
                          (try dsimp only)
                          (repeat' split) <;> exact ⟨rfl, hWF⟩
                        · rw [if_neg h10]
                          by_cases h11 : method = "item/reasoning/summaryPartAdded"
                          · rw [if_pos h11]
                            exact ⟨rfl, hWF⟩
                          · rw [if_neg h11]
                            by_cases h12 : method = "item/commandExecution/outputDelta"
                            · rw [if_pos h12]
                              (try dsimp only)
                              (repeat' split) <;> exact ⟨rfl, hWF⟩
                            · rw [if_neg h12]
                              by_cases h13 : method = "item/started" ∨ method = "item/completed"
                              · rw [if_pos h13]
                                (try dsimp only)
                                (repeat' split) <;>
                                  first
                                    | exact ⟨rfl, hWF⟩
                                    | (refine ⟨eventsCanonical_jsObj _ _ ?_
                                          (execBegin_rest_keys _ _ _ _),
                                        metaKeysOK_mset hWF.1 _ (meta3_keys _ _ _), hWF.2⟩
                                       decide)
                                    | (refine ⟨eventsCanonical_jsObj _ _ ?_
                                          (execEnd_rest_keys _ _ (metaKeysOK_mget hWF.1 _) _ _ _ _ _),
                                        metaKeysOK_mdel hWF.1 _, hWF.2⟩
                                       decide)
                                    | (refine ⟨eventsCanonical_jsObj _ _ ?_
                                          (patchBegin_rest_keys _ _ _),
                                        hWF.1, metaKeysOK_mset hWF.2 _ (meta2_keys _ _)⟩
                                       decide)
                                    | (refine ⟨eventsCanonical_jsObj _ _ ?_
                                          (patchEnd_rest_keys _ _ (metaKeysOK_mget hWF.2 _) _ _ _),
                                        hWF.1, metaKeysOK_mdel hWF.2 _⟩
                                       decide)
                              · rw [if_neg h13]
                                exact ⟨rfl, hWF⟩
  exact ⟨htail, hwrapped, hnotif⟩

end Conv

namespace Conv

open Value

/-- The notification methods the converter recognizes by name. -/
def handledMethods : List String := [
  "thread/started", "thread/resumed", "turn/started", "turn/completed",
  "thread/status/changed", "turn/diff/updated", "thread/tokenUsage/updated",
  "error", "stream_error", "item/agentMessage/delta",
  "item/reasoning/textDelta", "item/reasoning/summaryPartAdded",
  "item/commandExecution/outputDelta", "item/started", "item/completed"]

/-- The item id `item/started` / `item/completed` resolve, exactly as the
converter computes it. -/
def itemIdOf (pr : Value) : Option String :=
  match extractItemId pr with
  | some i => some i
  | none => asString (jsOr (getField (extractItem pr) "id")
      (jsOr (getField (extractItem pr) "itemId") (getField (extractItem pr) "item_id")))

end Conv

/-- C10.  `handleNotification` is total by construction (it is a Lean
function on all method strings and all params values, however malformed);
from a well-formed state every event it returns carries a string `type`
drawn from the canonical event set and well-formedness is preserved; an
unrecognized method (none of the handled names, and not `codex/event` or
`codex/event/...`) yields no events and an untouched state; and
`item/started` / `item/completed` items whose type or id cannot be
resolved yield no events and an untouched state. -/
theorem c10_handleNotification_total_canonical :
    (∀ (st : Conv.ConvState) (method : String) (params : Value), Conv.WF st →
      Conv.eventsCanonical (Conv.handleNotification st method params).1 = true
      ∧ Conv.WF (Conv.handleNotification st method params).2)
    ∧ (∀ (st : Conv.ConvState) (method : String) (params : Value),
        method ∉ Conv.handledMethods → method ≠ "codex/event" →
        strStartsWith method "codex/event/" = false →
        Conv.handleNotification st method params = ([], st))
    ∧ (∀ (st : Conv.ConvState) (method : String) (params : Value),
        (method = "item/started" ∨ method = "item/completed") →
        (Conv.itemTypeOf ((asRecord (some params)).getD (Value.obj [])) = none
          ∨ Conv.itemIdOf ((asRecord (some params)).getD (Value.obj [])) = none) →
        Conv.handleNotification st method params = ([], st)) := by
  refine ⟨?_, ?_, ?_⟩
  · intro st method params h
    exact (Conv.converter_safe (Value.vsize params) method.length).2.2 st method params
      h rfl rfl
  · intro st method params hnm hce hpre
    rw [Conv.handleNotification, Conv.handleCodexWrapped_none st method _ hce hpre]
    simp only [Conv.handledMethods, List.mem_cons, List.not_mem_nil, or_false] at hnm
    push_neg at hnm
    obtain ⟨g1, g2, g3, g4, g5, g6, g7, g8, g9, g10, g11, g12, g13, g14, g15⟩ := hnm
    simp only [g1, g2, g3, g4, g5, g6, g7, g8, g9, g10, g11, g12, g13, g14, g15,
      or_self, if_false]
  · intro st method params hmeth h
    have hstep : ∀ m : String, m = "item/started" ∨ m = "item/completed" →
        Conv.handleCodexWrapped st m ((asRecord (some params)).getD (Value.obj [])) = none := by
      intro m hm
      rcases hm with hm | hm <;> subst hm <;>
        exact Conv.handleCodexWrapped_none st _ _ (by decide) (by decide)
    rcases hmeth with hmeth | hmeth <;> subst hmeth <;>
      rw [Conv.handleNotification, hstep _ (by simp)] <;>
      simp only [String.reduceEq, or_self, or_false, false_or, or_true, true_or,
        if_false, if_true] <;>
      rcases h with h | h
    · simp only [Conv.itemTypeOf] at h
      simp only [h]
    · simp only [Conv.itemIdOf] at h
      cases hT : Conv.normalizeItemType (jsOr (Value.getField
          (Conv.extractItem ((asRecord (some params)).getD (Value.obj []))) "type")
          (jsOr (Value.getField (Conv.extractItem ((asRecord (some params)).getD (Value.obj []))) "itemType")
            (Value.getField (Conv.extractItem ((asRecord (some params)).getD (Value.obj []))) "kind"))) with
      | none => simp only [hT]
      | some ty => simp only [hT, h]
    · simp only [Conv.itemTypeOf] at h
      simp only [h]
    · simp only [Conv.itemIdOf] at h
      cases hT : Conv.normalizeItemType (jsOr (Value.getField
          (Conv.extractItem ((asRecord (some params)).getD (Value.obj []))) "type")
          (jsOr (Value.getField (Conv.extractItem ((asRecord (some params)).getD (Value.obj []))) "itemType")
            (Value.getField (Conv.extractItem ((asRecord (some params)).getD (Value.obj []))) "kind"))) with
      | none => simp only [hT]
      | some ty => simp only [hT, h]

theorem Conv.WF_init : Conv.WF Conv.ConvState.init :=
  ⟨fun kv hkv => absurd hkv (by simp [Conv.ConvState.init]),
   fun kv hkv => absurd hkv (by simp [Conv.ConvState.init])⟩

/-- Witness for C10: a well-formed `turn/started` emits only canonical
events; an unknown method and an `item/completed` without a resolvable
item both yield no events and leave the fresh state untouched. -/
theorem c10_handleNotification_total_canonical_witness :
    Conv.eventsCanonical (Conv.handleNotification Conv.ConvState.init "turn/started"
      (Value.obj [("turn", Value.obj [("id", Value.str "t1")])])).1 = true
    ∧ Conv.handleNotification Conv.ConvState.init "some/unknown/method" (Value.obj [])
        = ([], Conv.ConvState.init)
    ∧ Conv.handleNotification Conv.ConvState.init "item/completed" (Value.obj [])
        = ([], Conv.ConvState.init) := by
  refine ⟨?_, ?_, ?_⟩
  · exact (c10_handleNotification_total_canonical.1 Conv.ConvState.init "turn/started"
      (Value.obj [("turn", Value.obj [("id", Value.str "t1")])]) Conv.WF_init).1
  · exact c10_handleNotification_total_canonical.2.1 Conv.ConvState.init
      "some/unknown/method" (Value.obj []) (by decide) (by decide) (by decide)
  · exact c10_handleNotification_total_canonical.2.2 Conv.ConvState.init
      "item/completed" (Value.obj []) (Or.inr rfl) (Or.inl (by decide))

/-! ## Reasoning deltas versus final text (C5) -/

namespace Sdk

open Value

/-- `item.updated` texts growing from `p` by the suffixes `ds`, in order:
the monotone update chains of the SDK stream. -/
def chainTexts (p : String) : List String → List String
  | [] => []
  | d :: rest => (p ++ d) :: chainTexts (p ++ d) rest

theorem strDrop_len (t : String) (n : Nat) : (strDrop t n).length = t.length - n := by
  rw [strDrop]
  show (List.drop n t.data).length = t.data.length - n
  simp

theorem sdkRun_append (turnId : String) (l1 l2 : List Value) : ∀ st : SdkState,
    sdkRun turnId st (l1 ++ l2)
      = ((sdkRun turnId (sdkRun turnId st l1).1 l2).1,
         (sdkRun turnId st l1).2 ++ (sdkRun turnId (sdkRun turnId st l1).1 l2).2) := by
  induction l1 with
  | nil => intro st; simp [sdkRun]
  | cons e rest ih =>
      intro st
      cases hstep : sdkStep turnId st e with
      | mk s1 o1 =>
          simp only [List.cons_append, sdkRun, hstep, List.append_eq, ih,
            List.append_assoc]

/-- The SDK update step for an already-seen reasoning id, in full: the
buffer is reset to the new text unconditionally, and a delta — exactly the
suffix beyond the buffered prefix — is emitted exactly when the new text
strictly extends that prefix. -/
theorem reasoningUpdated_eq (turnId : String) (st : SdkState) (itemId t : String)
    (hid : 0 < itemId.length) (ht : 0 < t.length)
    (hseen : sHas st.reasoningItemIds itemId = true) :
    sdkStep turnId st (mkReason itemId ("item.updated", t))
      = ({ st with reasoningBuffers := mset st.reasoningBuffers itemId t },
         if t.length > ((mget st.reasoningBuffers itemId).getD "").length
             ∧ strStartsWith t ((mget st.reasoningBuffers itemId).getD "") = true
         then [Value.obj [("type", Value.str "agent_reasoning_delta"),
             ("delta", Value.str (strDrop t ((mget st.reasoningBuffers itemId).getD "").length))]]
         else []) := by
  have hty : normalizeItemType (some (Value.str "reasoning")) = some "reasoning" := by
    decide
  have hev : 0 < "item.updated".length := by decide
  have hdl : ∀ n : Nat, n < t.length → 0 < (strDrop t n).length := by
    intro n hn
    rw [strDrop_len]
    omega
  simp [mkReason, sdkStep, asRecord, asString, jsOr, Value.getField, Value.lookupField,
    String.reduceEq, hty, hev, hid, ht, hseen, extractTextFromContent, optGet]
  split
  · next hcond => rw [if_pos (hdl _ hcond.1)]
  · rfl

/-- An extending update emits exactly the extension. -/
theorem reasoningUpdated_step (turnId : String) (st : SdkState) (itemId prev d : String)
    (hid : 0 < itemId.length) (hd : 0 < d.length)
    (hseen : sHas st.reasoningItemIds itemId = true)
    (hbuf : (mget st.reasoningBuffers itemId).getD "" = prev) :
    sdkStep turnId st (mkReason itemId ("item.updated", prev ++ d))
      = ({ st with reasoningBuffers := mset st.reasoningBuffers itemId (prev ++ d) },
         [Value.obj [("type", Value.str "agent_reasoning_delta"), ("delta", Value.str d)]]) := by
  have ht : 0 < (prev ++ d).length := by rw [String.length_append]; omega
  rw [reasoningUpdated_eq turnId st itemId (prev ++ d) hid ht hseen, hbuf]
  rw [if_pos ⟨by rw [String.length_append]; omega, strStartsWith_append prev d⟩,
    strDrop_append]

/-- SDK `item.completed` without explicit text flushes the buffered text. -/
theorem reasoningCompleted_noText (turnId : String) (st : SdkState) (itemId t : String)
    (hid : 0 < itemId.length) (hbuf : mget st.reasoningBuffers itemId = some t)
    (ht : 0 < t.length) :
    sdkStep turnId st (mkReason itemId ("item.completed", ""))
      = ({ st with reasoningBuffers := mdel st.reasoningBuffers itemId },
         [Value.obj [("type", Value.str "agent_reasoning"), ("text", Value.str t)]]) := by
  have hty : normalizeItemType (some (Value.str "reasoning")) = some "reasoning" := by
    decide
  have hev : 0 < "item.completed".length := by decide
  simp [mkReason, sdkStep, asRecord, asString, jsOr, Value.getField, Value.lookupField,
    String.reduceEq, hty, hev, hid, hbuf, strTruthy, ht, extractTextFromContent, optGet]

/-- Folding a monotone update chain for one seen id: one delta per suffix,
in order; the seen-id set keeps the id; the buffer ends at the full text. -/
theorem sdkRun_reasoningUpdates (turnId itemId : String) (hid : 0 < itemId.length) :
    ∀ (ds : List String) (st : SdkState) (p : String),
    (∀ d ∈ ds, 0 < d.length) →
    sHas st.reasoningItemIds itemId = true →
    (mget st.reasoningBuffers itemId).getD "" = p →
    (sdkRun turnId st ((chainTexts p ds).map
        (fun t => mkReason itemId ("item.updated", t)))).2
      = ds.map (fun d => Value.obj [("type", Value.str "agent_reasoning_delta"),
          ("delta", Value.str d)])
    ∧ sHas (sdkRun turnId st ((chainTexts p ds).map
        (fun t => mkReason itemId ("item.updated", t)))).1.reasoningItemIds itemId = true
    ∧ (ds ≠ [] → mget (sdkRun turnId st ((chainTexts p ds).map
        (fun t => mkReason itemId ("item.updated", t)))).1.reasoningBuffers itemId
        = some (p ++ strConcat ds)) := by
  intro ds
  induction ds with
  | nil =>
      intro st p _ hseen _
      exact ⟨rfl, hseen, fun h => absurd rfl h⟩
  | cons d rest ih =>
      intro st p h hseen hbuf
      have hd : 0 < d.length := h d (by simp)
      have hrest : ∀ x ∈ rest, 0 < x.length := fun x hx => h x (by simp [hx])
      simp only [chainTexts, List.map_cons, sdkRun,
        reasoningUpdated_step turnId st itemId p d hid hd hseen hbuf]
      obtain ⟨ih1, ih2, ih3⟩ := ih
        { st with reasoningBuffers := mset st.reasoningBuffers itemId (p ++ d) }
        (p ++ d) hrest hseen (by simp [mget_mset_self])
      refine ⟨?_, ih2, ?_⟩
      · rw [ih1]
        simp
      · intro _
        by_cases hne : rest = []
        · subst hne
          simp only [chainTexts, List.map_nil, sdkRun]
          rw [mget_mset_self]
          simp [strConcat, String.append_empty]
        · have h3 := ih3 hne
          rw [h3]
          simp [strConcat, String.append_assoc]

end Sdk

/-- C5 (amended).  Reasoning deltas concatenate to the final
`agent_reasoning.text` only on the well-behaved paths: (1) in the
app-server converter, a train of non-empty `textDelta` notifications for a
fresh id followed by an `item/completed` without explicit text emits the
deltas in order and then `agent_reasoning` whose text is exactly their
concatenation; (2) an `item/completed` carrying an explicit non-empty
`text` emits that text verbatim, replacing the buffered deltas outright (a
first way the original prefix claim fails, see the counterexample); (3) in
the SDK mapper, `item.updated` for a seen id resets the buffer to the new
text unconditionally and emits a delta — exactly the suffix beyond the
buffered prefix — exactly when the new text strictly extends that prefix,
so a non-extending update discards the buffered prefix without emitting (a
second way the claim fails, see the counterexample); (4) over a whole
monotone update chain (each text extends the previous by a non-empty
suffix) followed by `item.completed` without explicit text, the SDK mapper
emits one delta per suffix and a final `agent_reasoning` carrying exactly
their concatenation. -/
theorem c5_reasoning_delta_prefix :
    (∀ (id : String) (ds : List String) (st : Conv.ConvState),
      0 < id.length → (∀ d ∈ ds, 0 < d.length) → ds ≠ [] →
      mget st.reasoningBuffers id = none →
      (Conv.runNotifs st (ds.map (fun d => ("item/reasoning/textDelta",
          Value.obj [("id", Value.str id), ("delta", Value.str d)]))
        ++ [("item/completed", Value.obj [("item", Value.obj [("id", Value.str id),
            ("type", Value.str "reasoning")])])])).1
        = ds.map (fun d => Value.obj [("type", Value.str "agent_reasoning_delta"),
            ("delta", Value.str d)])
          ++ [Value.obj [("type", Value.str "agent_reasoning"),
              ("text", Value.str (strConcat ds))]])
    ∧ (∀ (st : Conv.ConvState) (id t : String), 0 < id.length → 0 < t.length →
        (Conv.handleNotification st "item/completed"
          (Value.obj [("item", Value.obj [("id", Value.str id),
            ("type", Value.str "reasoning"), ("text", Value.str t)])])).1
        = [Value.obj [("type", Value.str "agent_reasoning"), ("text", Value.str t)]])
    ∧ (∀ (turnId : String) (st : Sdk.SdkState) (itemId t : String),
        0 < itemId.length → 0 < t.length →
        Sdk.sHas st.reasoningItemIds itemId = true →
        Sdk.sdkStep turnId st (Sdk.mkReason itemId ("item.updated", t))
          = ({ st with reasoningBuffers := mset st.reasoningBuffers itemId t },
             if t.length > ((mget st.reasoningBuffers itemId).getD "").length
                 ∧ strStartsWith t ((mget st.reasoningBuffers itemId).getD "") = true
             then [Value.obj [("type", Value.str "agent_reasoning_delta"),
                 ("delta", Value.str (strDrop t ((mget st.reasoningBuffers itemId).getD "").length))]]
             else []))
    ∧ (∀ (turnId itemId : String) (ds : List String) (st : Sdk.SdkState),
        0 < itemId.length → (∀ d ∈ ds, 0 < d.length) → ds ≠ [] →
        Sdk.sHas st.reasoningItemIds itemId = true →
        mget st.reasoningBuffers itemId = none →
        (Sdk.sdkRun turnId st ((Sdk.chainTexts "" ds).map
            (fun t => Sdk.mkReason itemId ("item.updated", t))
          ++ [Sdk.mkReason itemId ("item.completed", "")])).2
          = ds.map (fun d => Value.obj [("type", Value.str "agent_reasoning_delta"),
              ("delta", Value.str d)])
            ++ [Value.obj [("type", Value.str "agent_reasoning"),
                ("text", Value.str (strConcat ds))]]) := by
  refine ⟨?_, ?_, ?_, ?_⟩
  · intro id ds st hid hds hne hnone
    have hc : 0 < (strConcat ds).length := by
      cases ds with
      | nil => exact absurd rfl hne
      | cons a l =>
          have ha := hds a (by simp)
          simp only [strConcat, String.length_append]
          omega
    obtain ⟨h1, h2⟩ := Conv.runNotifs_textDeltas id hid ds st hds
    have h2' := h2 hne
    rw [hnone] at h2'
    simp only [Option.getD_none, String.empty_append] at h2'
    rw [Conv.runNotifs_append]
    simp only [Conv.runNotifs]
    rw [h1, Conv.reasoningCompleted_buffered _ id (strConcat ds) hid h2' hc]
    simp
  · intro st id t hid ht
    rw [Conv.reasoningCompleted_explicit st id t hid ht]
  · intro turnId st itemId t hid ht hseen
    exact Sdk.reasoningUpdated_eq turnId st itemId t hid ht hseen
  · intro turnId itemId ds st hid hds hne hseen hnone
    have hc : 0 < (strConcat ds).length := by
      cases ds with
      | nil => exact absurd rfl hne
      | cons a l =>
          have ha := hds a (by simp)
          simp only [strConcat, String.length_append]
          omega
    obtain ⟨h1, h2, h3⟩ := Sdk.sdkRun_reasoningUpdates turnId itemId hid ds st ""
      hds hseen (by rw [hnone]; rfl)
    have h3' := h3 hne
    rw [String.empty_append] at h3'
    rw [Sdk.sdkRun_append]
    simp only [Sdk.sdkRun]
    rw [h1, Sdk.reasoningCompleted_noText turnId _ itemId (strConcat ds) hid h3' hc]
    simp

/-- Witness for C5 (amended): concrete runs of all four parts — two
app-server deltas flushing to their concatenation, an explicit-text
completion, a non-extending SDK update emitting nothing, and a monotone
SDK chain flushing to its concatenation. -/
theorem c5_reasoning_delta_prefix_witness :
    (Conv.runNotifs Conv.ConvState.init
      [("item/reasoning/textDelta", Value.obj [("id", Value.str "r1"), ("delta", Value.str "ab")]),
       ("item/reasoning/textDelta", Value.obj [("id", Value.str "r1"), ("delta", Value.str "c")]),
       ("item/completed", Value.obj [("item", Value.obj [("id", Value.str "r1"),
         ("type", Value.str "reasoning")])])]).1
      = [Value.obj [("type", Value.str "agent_reasoning_delta"), ("delta", Value.str "ab")],
         Value.obj [("type", Value.str "agent_reasoning_delta"), ("delta", Value.str "c")],
         Value.obj [("type", Value.str "agent_reasoning"), ("text", Value.str "abc")]]
    ∧ (Conv.handleNotification Conv.ConvState.init "item/completed"
        (Value.obj [("item", Value.obj [("id", Value.str "r1"),
          ("type", Value.str "reasoning"), ("text", Value.str "z")])])).1
      = [Value.obj [("type", Value.str "agent_reasoning"), ("text", Value.str "z")]]
    ∧ (Sdk.sdkStep "t1" { Sdk.SdkState.init with reasoningItemIds := ["r1"], reasoningBuffers := [("r1", "ab")] }
        (Sdk.mkReason "r1" ("item.updated", "a"))).2 = []
    ∧ (Sdk.sdkRun "t1" { Sdk.SdkState.init with reasoningItemIds := ["r1"] }
        ((Sdk.chainTexts "" ["ab", "c"]).map (fun t => Sdk.mkReason "r1" ("item.updated", t))
          ++ [Sdk.mkReason "r1" ("item.completed", "")])).2
      = [Value.obj [("type", Value.str "agent_reasoning_delta"), ("delta", Value.str "ab")],
         Value.obj [("type", Value.str "agent_reasoning_delta"), ("delta", Value.str "c")],
         Value.obj [("type", Value.str "agent_reasoning"), ("text", Value.str "abc")]] := by
  refine ⟨?_, ?_, ?_, ?_⟩
  · have h := c5_reasoning_delta_prefix.1 "r1" ["ab", "c"] Conv.ConvState.init
      (by decide) (by decide) (by decide) (by decide)
    exact h.trans (by decide)
  · have h := c5_reasoning_delta_prefix.2.1 Conv.ConvState.init "r1" "z"
      (by decide) (by decide)
    exact h
  · have h := c5_reasoning_delta_prefix.2.2.1 "t1"
      { Sdk.SdkState.init with reasoningItemIds := ["r1"], reasoningBuffers := [("r1", "ab")] }
      "r1" "a" (by decide) (by decide) (by decide)
    rw [h]
    decide
  · have h := c5_reasoning_delta_prefix.2.2.2 "t1" "r1" ["ab", "c"]
      { Sdk.SdkState.init with reasoningItemIds := ["r1"] }
      (by decide) (by decide) (by decide) (by decide) (by decide)
    exact h.trans (by decide)

/-- C5 counterexample, both failure modes of the original claim.
App-server: one delta `'abc'` for id `r1` then `item/completed` with the
explicit text `'z'` emits the delta and `agent_reasoning { text: 'z' }`,
and `'abc'` is not a prefix of `'z'`.  SDK mapper: updates `'ab'` then the
non-extending `'a'` followed by `item.completed` without text emit the
single delta `'ab'` and the final text `'a'` (the non-extending update
reset the buffer silently), and `'ab'` is not a prefix of `'a'`. -/
theorem c5_counterexample :
    (Conv.runNotifs Conv.ConvState.init
      [("item/reasoning/textDelta", Value.obj [("id", Value.str "r1"), ("delta", Value.str "abc")]),
       ("item/completed", Value.obj [("item", Value.obj [("id", Value.str "r1"),
         ("type", Value.str "reasoning"), ("text", Value.str "z")])])]).1
    = [Value.obj [("type", Value.str "agent_reasoning_delta"), ("delta", Value.str "abc")],
       Value.obj [("type", Value.str "agent_reasoning"), ("text", Value.str "z")]]
    ∧ strStartsWith "z" "abc" = false
    ∧ (Sdk.sdkRun "t1" Sdk.SdkState.init
        [Sdk.mkReason "r1" ("item.updated", "ab"), Sdk.mkReason "r1" ("item.updated", "a"),
         Sdk.mkReason "r1" ("item.completed", "")]).2
      = [Value.obj [("type", Value.str "agent_reasoning_delta"), ("delta", Value.str "ab")],
         Value.obj [("type", Value.str "agent_reasoning"), ("text", Value.str "a")]]
    ∧ strStartsWith "a" "ab" = false := by
  refine ⟨?_, ?_, ?_, ?_⟩
  · simp [Conv.runNotifs, Conv.handleNotification, Conv.handleCodexWrapped,
      Conv.handleWrappedTail, asRecord, asString, jsOr, Value.getField,
      Value.lookupField, optGet, optEntryS, Conv.optEntryB, optEntryV, strStartsWith,
      Conv.extractItemId, Conv.extractItem, Conv.normalizeItemType, Conv.stripSepLower,
      lowerStr, asciiLowerChar, isJsWs, mget, mset, mdel, strTruthy, asBoolean]
    all_goals decide
  · decide
  · decide
  · decide
